import Mathlib

/-!
Shallow embedding of the CHIP-8 interpreter (src/instruction.rs and
src/cpu.rs) and verification of its specification claims.

Conventions of the embedding:
* Machine integers (u8, u16, usize) become `Nat`, with explicit `% 256` /
  `% 65536` wherever the Rust code wraps.  Bit operations `& 0xf`,
  `<< k`, `|` on masked fields are written with `% 16`, `<<<` and `|||`.
* Rust panics become `Except Fault` errors: the `panic!` in
  `Instruction::decode` becomes `Fault.decodeFault word` (the message
  names the offending word), an array index-out-of-bounds panic becomes
  `Fault.oob index` (the panic names the index), and `todo!()` becomes
  `Fault.unimplemented`.
* Fixed-size arrays (`[u8; 4096]`, `[u8; 16]`, `[u16; 16]`) become total
  functions `Nat → Nat`; every access the code performs is at an index
  the code either bounds-checks (memory, via `Except`) or keeps inside
  the array by construction (the register file via 4-bit decoded fields,
  the stack pointer via its wrap logic, stated as hypotheses).
-/

/-- Faults a `Cpu::cycle` invocation can raise (as Rust panics). -/
inductive Fault where
  /-- `panic!("decoded invalid instruction: {source:#04x}")` in `Instruction::decode`. -/
  | decodeFault (word : Nat)
  /-- Rust array index-out-of-bounds panic; carries the offending index. -/
  | oob (index : Nat)
  /-- `todo!()` in an unimplemented match arm of `Cpu::cycle`. -/
  | unimplemented
deriving DecidableEq, Repr

/-- The `Instruction` enum of src/instruction.rs, operand fields as `Nat`. -/
inductive Instruction where
  | Cls
  | Ret
  | JpImm (addr : Nat)
  | Call (addr : Nat)
  | SeImm (x imm : Nat)
  | SneImm (x imm : Nat)
  | SeReg (x y : Nat)
  | LdImm (x imm : Nat)
  | AddImm (x imm : Nat)
  | LdReg (x y : Nat)
  | OrReg (x y : Nat)
  | AndReg (x y : Nat)
  | XorReg (x y : Nat)
  | AddReg (x y : Nat)
  | SubReg (x y : Nat)
  | Shr (x y : Nat)
  | Subn (x y : Nat)
  | Shl (x y : Nat)
  | SneReg (x y : Nat)
  | LdI (addr : Nat)
  | JpReg (addr : Nat)
  | Rnd (x imm : Nat)
  | Drw (x y n : Nat)
  | Skp (x : Nat)
  | Sknp (x : Nat)
  | LdRegDt (x : Nat)
  | LdRegK (x : Nat)
  | LdDtReg (x : Nat)
  | LdStReg (x : Nat)
  | AddI (x : Nat)
  | LdF (x : Nat)
  | LdB (x : Nat)
  | LdMemReg (x : Nat)
  | LdRegMem (x : Nat)
deriving DecidableEq, Repr

/-- Nibble `j` of a word: `(source >> (4*j)) & 0xf` in the source. -/
def nib (j w : Nat) : Nat := w / 16 ^ j % 16

/-- `assemble_address(n0, n1, n2)`:
`(n0 as u16 & 0xf) | ((n1 as u16 & 0xf) << 4) | ((n2 as u16 & 0xf) << 8)`. -/
def assembleAddress (n0 n1 n2 : Nat) : Nat :=
  (n0 % 16) ||| ((n1 % 16) <<< 4) ||| ((n2 % 16) <<< 8)

/-- `assemble_byte(k0, k1)`: `(k0 & 0xf) | ((k1 & 0xf) << 4)`. -/
def assembleByte (k0 k1 : Nat) : Nat :=
  (k0 % 16) ||| ((k1 % 16) <<< 4)

/-- `Instruction::decode`: match on the four nibbles, most significant
first, in source order; the fall-through arm panics naming the word. -/
def decode (w : Nat) : Except Fault Instruction :=
  match nib 3 w, nib 2 w, nib 1 w, nib 0 w with
  | 0x0, 0x0, 0xE, 0x0 => .ok .Cls
  | 0x0, 0x0, 0xE, 0xE => .ok .Ret
  | 0x1,  n2,  n1,  n0 => .ok (.JpImm (assembleAddress n0 n1 n2))
  | 0x2,  n2,  n1,  n0 => .ok (.Call (assembleAddress n0 n1 n2))
  | 0x3,   x,  k1,  k0 => .ok (.SeImm x (assembleByte k0 k1))
  | 0x4,   x,  k1,  k0 => .ok (.SneImm x (assembleByte k0 k1))
  | 0x5,   x,   y, 0x0 => .ok (.SeReg x y)
  | 0x6,   x,  k1,  k0 => .ok (.LdImm x (assembleByte k0 k1))
  | 0x7,   x,  k1,  k0 => .ok (.AddImm x (assembleByte k0 k1))
  | 0x8,   x,   y, 0x0 => .ok (.LdReg x y)
  | 0x8,   x,   y, 0x1 => .ok (.OrReg x y)
  | 0x8,   x,   y, 0x2 => .ok (.AndReg x y)
  | 0x8,   x,   y, 0x3 => .ok (.XorReg x y)
  | 0x8,   x,   y, 0x4 => .ok (.AddReg x y)
  | 0x8,   x,   y, 0x5 => .ok (.SubReg x y)
  | 0x8,   x,   y, 0x6 => .ok (.Shr x y)
  | 0x8,   x,   y, 0x7 => .ok (.Subn x y)
  | 0x8,   x,   y, 0xE => .ok (.Shl x y)
  | 0x9,   x,   y, 0x0 => .ok (.SneReg x y)
  | 0xA,  n2,  n1,  n0 => .ok (.LdI (assembleAddress n0 n1 n2))
  | 0xB,  n2,  n1,  n0 => .ok (.JpReg (assembleAddress n0 n1 n2))
  | 0xC,   x,  k1,  k0 => .ok (.Rnd x (assembleByte k0 k1))
  | 0xD,   x,   y,   n => .ok (.Drw x y n)
  | 0xE,   x, 0x9, 0xE => .ok (.Skp x)
  | 0xE,   x, 0xA, 0x1 => .ok (.Sknp x)
  | 0xF,   x, 0x0, 0x7 => .ok (.LdRegDt x)
  | 0xF,   x, 0x0, 0xA => .ok (.LdRegK x)
  | 0xF,   x, 0x1, 0x5 => .ok (.LdDtReg x)
  | 0xF,   x, 0x1, 0x8 => .ok (.LdStReg x)
  | 0xF,   x, 0x1, 0xE => .ok (.AddI x)
  | 0xF,   x, 0x2, 0x9 => .ok (.LdF x)
  | 0xF,   x, 0x3, 0x3 => .ok (.LdB x)
  | 0xF,   x, 0x5, 0x5 => .ok (.LdMemReg x)
  | 0xF,   x, 0x6, 0x5 => .ok (.LdRegMem x)
  | _, _, _, _ => .error (.decodeFault w)

/-- Spec-side predicate, written from the disambiguation table of §4.1 of
the spec: which 16-bit nibble patterns are defined encodings.  The 0x0
family ops (clear-display, return) carry no operand fields, so their
encodings are exactly the canonical words 0x00E0 and 0x00EE. -/
def specDefinedEncoding (w : Nat) : Bool :=
  let n3 := w / 4096 % 16
  let n0 := w % 16
  let low := w % 256
  if n3 == 0x0 then w % 4096 == 0xE0 || w % 4096 == 0xEE
  else if n3 == 0x1 || n3 == 0x2 || n3 == 0x3 || n3 == 0x4 || n3 == 0x6 ||
          n3 == 0x7 || n3 == 0xA || n3 == 0xB || n3 == 0xC || n3 == 0xD then true
  else if n3 == 0x5 || n3 == 0x9 then n0 == 0x0
  else if n3 == 0x8 then n0 < 8 || n0 == 0xE
  else if n3 == 0xE then low == 0x9E || low == 0xA1
  else if n3 == 0xF then
    low == 0x07 || low == 0x0A || low == 0x15 || low == 0x18 || low == 0x1E ||
    low == 0x29 || low == 0x33 || low == 0x55 || low == 0x65
  else false

theorem nib_lt (j w : Nat) : nib j w < 16 := Nat.mod_lt _ (by omega)

theorem nib3_eq (w : Nat) : nib 3 w = w / 4096 % 16 := by norm_num [nib]

theorem nib2_eq (w : Nat) : nib 2 w = w / 256 % 16 := by norm_num [nib]

theorem nib1_eq (w : Nat) : nib 1 w = w / 16 % 16 := by norm_num [nib]

theorem nib0_eq (w : Nat) : nib 0 w = w % 16 := by simp [nib]

theorem lor3_eq_add : ∀ a < 16, ∀ b < 16, ∀ c < 16,
    ((a ||| (b <<< 4)) ||| (c <<< 8)) = a + b * 16 + c * 256 := by decide

theorem lor2_eq_add : ∀ a < 16, ∀ b < 16, ((a ||| (b <<< 4))) = a + b * 16 := by decide

/-- The address is assembled low nibble first: the first argument lands in
bits 0-3, the second in bits 4-7, the third in bits 8-11. -/
theorem assembleAddress_eq (n0 n1 n2 : Nat) :
    assembleAddress n0 n1 n2 = n0 % 16 + (n1 % 16) * 16 + (n2 % 16) * 256 := by
  have := lor3_eq_add (n0 % 16) (by omega) (n1 % 16) (by omega) (n2 % 16) (by omega)
  simpa [assembleAddress] using this

/-- The immediate byte is assembled low nibble first. -/
theorem assembleByte_eq (k0 k1 : Nat) :
    assembleByte k0 k1 = k0 % 16 + (k1 % 16) * 16 := by
  have := lor2_eq_add (k0 % 16) (by omega) (k1 % 16) (by omega)
  simpa [assembleByte] using this

theorem assembleAddress_lt (n0 n1 n2 : Nat) : assembleAddress n0 n1 n2 < 4096 := by
  rw [assembleAddress_eq]; omega

theorem assembleByte_lt (k0 k1 : Nat) : assembleByte k0 k1 < 256 := by
  rw [assembleByte_eq]; omega

/-- Operand fields in range: register indices and nibble counts below 16,
immediate bytes below 256, addresses below 4096. -/
def operandsInRange : Instruction → Prop
  | .Cls | .Ret => True
  | .JpImm a | .Call a | .LdI a | .JpReg a => a < 4096
  | .SeImm x k | .SneImm x k | .LdImm x k | .AddImm x k | .Rnd x k => x < 16 ∧ k < 256
  | .SeReg x y | .LdReg x y | .OrReg x y | .AndReg x y | .XorReg x y | .AddReg x y
  | .SubReg x y | .Shr x y | .Subn x y | .Shl x y | .SneReg x y => x < 16 ∧ y < 16
  | .Drw x y n => x < 16 ∧ y < 16 ∧ n < 16
  | .Skp x | .Sknp x | .LdRegDt x | .LdRegK x | .LdDtReg x | .LdStReg x
  | .AddI x | .LdF x | .LdB x | .LdMemReg x | .LdRegMem x => x < 16

theorem nibCases (n : Nat) (h : n < 16) :
    n = 0 ∨ n = 1 ∨ n = 2 ∨ n = 3 ∨ n = 4 ∨ n = 5 ∨ n = 6 ∨ n = 7 ∨ n = 8 ∨
    n = 9 ∨ n = 10 ∨ n = 11 ∨ n = 12 ∨ n = 13 ∨ n = 14 ∨ n = 15 := by omega

set_option maxHeartbeats 4000000 in
set_option linter.unnecessarySeqFocus false in
set_option linter.unreachableTactic false in
set_option linter.unusedTactic false in
/-- Case analysis underlying decode totality: every word either is a
spec-defined encoding and decodes to some instruction whose operand
fields are in range, or is not one and decode faults naming the word.
The proof walks the nibble patterns of the decoder match arm by arm. -/
theorem decode_total_cases (w : Nat) :
    (specDefinedEncoding w = true ∧ ∃ i, decode w = .ok i ∧ operandsInRange i) ∨
    (specDefinedEncoding w = false ∧ decode w = .error (.decodeFault w)) := by
  rcases nibCases (w / 4096 % 16) (by omega) with h3|h3|h3|h3|h3|h3|h3|h3|h3|h3|h3|h3|h3|h3|h3|h3
  -- n3 = 0x0: only the canonical words 0x00E0 / 0x00EE decode
  · rcases nibCases (w / 256 % 16) (by omega) with h2|h2|h2|h2|h2|h2|h2|h2|h2|h2|h2|h2|h2|h2|h2|h2
    · rcases nibCases (w / 16 % 16) (by omega) with h1|h1|h1|h1|h1|h1|h1|h1|h1|h1|h1|h1|h1|h1|h1|h1
      · exact Or.inr ⟨by simp [specDefinedEncoding, h3, h2, h1] <;> omega,
          by unfold decode; rw [nib3_eq, nib2_eq, nib1_eq, nib0_eq, h3, h2, h1]; try rfl⟩
      · exact Or.inr ⟨by simp [specDefinedEncoding, h3, h2, h1] <;> omega,
          by unfold decode; rw [nib3_eq, nib2_eq, nib1_eq, nib0_eq, h3, h2, h1]; try rfl⟩
      · exact Or.inr ⟨by simp [specDefinedEncoding, h3, h2, h1] <;> omega,
          by unfold decode; rw [nib3_eq, nib2_eq, nib1_eq, nib0_eq, h3, h2, h1]; try rfl⟩
      · exact Or.inr ⟨by simp [specDefinedEncoding, h3, h2, h1] <;> omega,
          by unfold decode; rw [nib3_eq, nib2_eq, nib1_eq, nib0_eq, h3, h2, h1]; try rfl⟩
      · exact Or.inr ⟨by simp [specDefinedEncoding, h3, h2, h1] <;> omega,
          by unfold decode; rw [nib3_eq, nib2_eq, nib1_eq, nib0_eq, h3, h2, h1]; try rfl⟩
      · exact Or.inr ⟨by simp [specDefinedEncoding, h3, h2, h1] <;> omega,
          by unfold decode; rw [nib3_eq, nib2_eq, nib1_eq, nib0_eq, h3, h2, h1]; try rfl⟩
      · exact Or.inr ⟨by simp [specDefinedEncoding, h3, h2, h1] <;> omega,
          by unfold decode; rw [nib3_eq, nib2_eq, nib1_eq, nib0_eq, h3, h2, h1]; try rfl⟩
      · exact Or.inr ⟨by simp [specDefinedEncoding, h3, h2, h1] <;> omega,
          by unfold decode; rw [nib3_eq, nib2_eq, nib1_eq, nib0_eq, h3, h2, h1]; try rfl⟩
      · exact Or.inr ⟨by simp [specDefinedEncoding, h3, h2, h1] <;> omega,
          by unfold decode; rw [nib3_eq, nib2_eq, nib1_eq, nib0_eq, h3, h2, h1]; try rfl⟩
      · exact Or.inr ⟨by simp [specDefinedEncoding, h3, h2, h1] <;> omega,
          by unfold decode; rw [nib3_eq, nib2_eq, nib1_eq, nib0_eq, h3, h2, h1]; try rfl⟩
      · exact Or.inr ⟨by simp [specDefinedEncoding, h3, h2, h1] <;> omega,
          by unfold decode; rw [nib3_eq, nib2_eq, nib1_eq, nib0_eq, h3, h2, h1]; try rfl⟩
      · exact Or.inr ⟨by simp [specDefinedEncoding, h3, h2, h1] <;> omega,
          by unfold decode; rw [nib3_eq, nib2_eq, nib1_eq, nib0_eq, h3, h2, h1]; try rfl⟩
      · exact Or.inr ⟨by simp [specDefinedEncoding, h3, h2, h1] <;> omega,
          by unfold decode; rw [nib3_eq, nib2_eq, nib1_eq, nib0_eq, h3, h2, h1]; try rfl⟩
      · exact Or.inr ⟨by simp [specDefinedEncoding, h3, h2, h1] <;> omega,
          by unfold decode; rw [nib3_eq, nib2_eq, nib1_eq, nib0_eq, h3, h2, h1]; try rfl⟩
      · -- n1 = 0xE: low nibble selects CLS / RET
        rcases nibCases (w % 16) (by omega) with h0|h0|h0|h0|h0|h0|h0|h0|h0|h0|h0|h0|h0|h0|h0|h0
        · exact Or.inl ⟨by simp [specDefinedEncoding, h3, h2, h1, h0] <;> omega,
            ⟨_, by unfold decode; rw [nib3_eq, nib2_eq, nib1_eq, nib0_eq, h3, h2, h1, h0]; try rfl,
            by unfold operandsInRange <;> (repeat' apply And.intro) <;>
              first | omega | exact assembleAddress_lt _ _ _ | exact assembleByte_lt _ _ | trivial⟩⟩
        · exact Or.inr ⟨by simp [specDefinedEncoding, h3, h2, h1, h0] <;> omega,
            by unfold decode; rw [nib3_eq, nib2_eq, nib1_eq, nib0_eq, h3, h2, h1, h0]; try rfl⟩
        · exact Or.inr ⟨by simp [specDefinedEncoding, h3, h2, h1, h0] <;> omega,
            by unfold decode; rw [nib3_eq, nib2_eq, nib1_eq, nib0_eq, h3, h2, h1, h0]; try rfl⟩
        · exact Or.inr ⟨by simp [specDefinedEncoding, h3, h2, h1, h0] <;> omega,
            by unfold decode; rw [nib3_eq, nib2_eq, nib1_eq, nib0_eq, h3, h2, h1, h0]; try rfl⟩
        · exact Or.inr ⟨by simp [specDefinedEncoding, h3, h2, h1, h0] <;> omega,
            by unfold decode; rw [nib3_eq, nib2_eq, nib1_eq, nib0_eq, h3, h2, h1, h0]; try rfl⟩
        · exact Or.inr ⟨by simp [specDefinedEncoding, h3, h2, h1, h0] <;> omega,
            by unfold decode; rw [nib3_eq, nib2_eq, nib1_eq, nib0_eq, h3, h2, h1, h0]; try rfl⟩
        · exact Or.inr ⟨by simp [specDefinedEncoding, h3, h2, h1, h0] <;> omega,
            by unfold decode; rw [nib3_eq, nib2_eq, nib1_eq, nib0_eq, h3, h2, h1, h0]; try rfl⟩
        · exact Or.inr ⟨by simp [specDefinedEncoding, h3, h2, h1, h0] <;> omega,
            by unfold decode; rw [nib3_eq, nib2_eq, nib1_eq, nib0_eq, h3, h2, h1, h0]; try rfl⟩
        · exact Or.inr ⟨by simp [specDefinedEncoding, h3, h2, h1, h0] <;> omega,
            by unfold decode; rw [nib3_eq, nib2_eq, nib1_eq, nib0_eq, h3, h2, h1, h0]; try rfl⟩
        · exact Or.inr ⟨by simp [specDefinedEncoding, h3, h2, h1, h0] <;> omega,
            by unfold decode; rw [nib3_eq, nib2_eq, nib1_eq, nib0_eq, h3, h2, h1, h0]; try rfl⟩
        · exact Or.inr ⟨by simp [specDefinedEncoding, h3, h2, h1, h0] <;> omega,
            by unfold decode; rw [nib3_eq, nib2_eq, nib1_eq, nib0_eq, h3, h2, h1, h0]; try rfl⟩
        · exact Or.inr ⟨by simp [specDefinedEncoding, h3, h2, h1, h0] <;> omega,
            by unfold decode; rw [nib3_eq, nib2_eq, nib1_eq, nib0_eq, h3, h2, h1, h0]; try rfl⟩
        · exact Or.inr ⟨by simp [specDefinedEncoding, h3, h2, h1, h0] <;> omega,
            by unfold decode; rw [nib3_eq, nib2_eq, nib1_eq, nib0_eq, h3, h2, h1, h0]; try rfl⟩
        · exact Or.inr ⟨by simp [specDefinedEncoding, h3, h2, h1, h0] <;> omega,
            by unfold decode; rw [nib3_eq, nib2_eq, nib1_eq, nib0_eq, h3, h2, h1, h0]; try rfl⟩
        · exact Or.inl ⟨by simp [specDefinedEncoding, h3, h2, h1, h0] <;> omega,
            ⟨_, by unfold decode; rw [nib3_eq, nib2_eq, nib1_eq, nib0_eq, h3, h2, h1, h0]; try rfl,
            by unfold operandsInRange <;> (repeat' apply And.intro) <;>
              first | omega | exact assembleAddress_lt _ _ _ | exact assembleByte_lt _ _ | trivial⟩⟩
        · exact Or.inr ⟨by simp [specDefinedEncoding, h3, h2, h1, h0] <;> omega,
            by unfold decode; rw [nib3_eq, nib2_eq, nib1_eq, nib0_eq, h3, h2, h1, h0]; try rfl⟩
      · exact Or.inr ⟨by simp [specDefinedEncoding, h3, h2, h1] <;> omega,
          by unfold decode; rw [nib3_eq, nib2_eq, nib1_eq, nib0_eq, h3, h2, h1]; try rfl⟩
    · exact Or.inr ⟨by simp [specDefinedEncoding, h3, h2] <;> omega,
        by unfold decode; rw [nib3_eq, nib2_eq, nib1_eq, nib0_eq, h3, h2]; try rfl⟩
    · exact Or.inr ⟨by simp [specDefinedEncoding, h3, h2] <;> omega,
        by unfold decode; rw [nib3_eq, nib2_eq, nib1_eq, nib0_eq, h3, h2]; try rfl⟩
    · exact Or.inr ⟨by simp [specDefinedEncoding, h3, h2] <;> omega,
        by unfold decode; rw [nib3_eq, nib2_eq, nib1_eq, nib0_eq, h3, h2]; try rfl⟩
    · exact Or.inr ⟨by simp [specDefinedEncoding, h3, h2] <;> omega,
        by unfold decode; rw [nib3_eq, nib2_eq, nib1_eq, nib0_eq, h3, h2]; try rfl⟩
    · exact Or.inr ⟨by simp [specDefinedEncoding, h3, h2] <;> omega,
        by unfold decode; rw [nib3_eq, nib2_eq, nib1_eq, nib0_eq, h3, h2]; try rfl⟩
    · exact Or.inr ⟨by simp [specDefinedEncoding, h3, h2] <;> omega,
        by unfold decode; rw [nib3_eq, nib2_eq, nib1_eq, nib0_eq, h3, h2]; try rfl⟩
    · exact Or.inr ⟨by simp [specDefinedEncoding, h3, h2] <;> omega,
        by unfold decode; rw [nib3_eq, nib2_eq, nib1_eq, nib0_eq, h3, h2]; try rfl⟩
    · exact Or.inr ⟨by simp [specDefinedEncoding, h3, h2] <;> omega,
        by unfold decode; rw [nib3_eq, nib2_eq, nib1_eq, nib0_eq, h3, h2]; try rfl⟩
    · exact Or.inr ⟨by simp [specDefinedEncoding, h3, h2] <;> omega,
        by unfold decode; rw [nib3_eq, nib2_eq, nib1_eq, nib0_eq, h3, h2]; try rfl⟩
    · exact Or.inr ⟨by simp [specDefinedEncoding, h3, h2] <;> omega,
        by unfold decode; rw [nib3_eq, nib2_eq, nib1_eq, nib0_eq, h3, h2]; try rfl⟩
    · exact Or.inr ⟨by simp [specDefinedEncoding, h3, h2] <;> omega,
        by unfold decode; rw [nib3_eq, nib2_eq, nib1_eq, nib0_eq, h3, h2]; try rfl⟩
    · exact Or.inr ⟨by simp [specDefinedEncoding, h3, h2] <;> omega,
        by unfold decode; rw [nib3_eq, nib2_eq, nib1_eq, nib0_eq, h3, h2]; try rfl⟩
    · exact Or.inr ⟨by simp [specDefinedEncoding, h3, h2] <;> omega,
        by unfold decode; rw [nib3_eq, nib2_eq, nib1_eq, nib0_eq, h3, h2]; try rfl⟩
    · exact Or.inr ⟨by simp [specDefinedEncoding, h3, h2] <;> omega,
        by unfold decode; rw [nib3_eq, nib2_eq, nib1_eq, nib0_eq, h3, h2]; try rfl⟩
    · exact Or.inr ⟨by simp [specDefinedEncoding, h3, h2] <;> omega,
        by unfold decode; rw [nib3_eq, nib2_eq, nib1_eq, nib0_eq, h3, h2]; try rfl⟩
  -- n3 = 0x1
  · exact Or.inl ⟨by simp [specDefinedEncoding, h3] <;> omega,
      ⟨_, by unfold decode; rw [nib3_eq, nib2_eq, nib1_eq, nib0_eq, h3]; try rfl,
      by unfold operandsInRange <;> (repeat' apply And.intro) <;>
        first | omega | exact assembleAddress_lt _ _ _ | exact assembleByte_lt _ _ | trivial⟩⟩
  -- n3 = 0x2
  · exact Or.inl ⟨by simp [specDefinedEncoding, h3] <;> omega,
      ⟨_, by unfold decode; rw [nib3_eq, nib2_eq, nib1_eq, nib0_eq, h3]; try rfl,
      by unfold operandsInRange <;> (repeat' apply And.intro) <;>
        first | omega | exact assembleAddress_lt _ _ _ | exact assembleByte_lt _ _ | trivial⟩⟩
  -- n3 = 0x3
  · exact Or.inl ⟨by simp [specDefinedEncoding, h3] <;> omega,
      ⟨_, by unfold decode; rw [nib3_eq, nib2_eq, nib1_eq, nib0_eq, h3]; try rfl,
      by unfold operandsInRange <;> (repeat' apply And.intro) <;>
        first | omega | exact assembleAddress_lt _ _ _ | exact assembleByte_lt _ _ | trivial⟩⟩
  -- n3 = 0x4
  · exact Or.inl ⟨by simp [specDefinedEncoding, h3] <;> omega,
      ⟨_, by unfold decode; rw [nib3_eq, nib2_eq, nib1_eq, nib0_eq, h3]; try rfl,
      by unfold operandsInRange <;> (repeat' apply And.intro) <;>
        first | omega | exact assembleAddress_lt _ _ _ | exact assembleByte_lt _ _ | trivial⟩⟩
  -- n3 = 0x5: defined only when the low nibble is 0
  · rcases nibCases (w % 16) (by omega) with h0|h0|h0|h0|h0|h0|h0|h0|h0|h0|h0|h0|h0|h0|h0|h0
    · exact Or.inl ⟨by simp [specDefinedEncoding, h3, h0] <;> omega,
        ⟨_, by unfold decode; rw [nib3_eq, nib2_eq, nib1_eq, nib0_eq, h3, h0]; try rfl,
        by unfold operandsInRange <;> (repeat' apply And.intro) <;>
          first | omega | exact assembleAddress_lt _ _ _ | exact assembleByte_lt _ _ | trivial⟩⟩
    · exact Or.inr ⟨by simp [specDefinedEncoding, h3, h0] <;> omega,
        by unfold decode; rw [nib3_eq, nib2_eq, nib1_eq, nib0_eq, h3, h0]; try rfl⟩
    · exact Or.inr ⟨by simp [specDefinedEncoding, h3, h0] <;> omega,
        by unfold decode; rw [nib3_eq, nib2_eq, nib1_eq, nib0_eq, h3, h0]; try rfl⟩
    · exact Or.inr ⟨by simp [specDefinedEncoding, h3, h0] <;> omega,
        by unfold decode; rw [nib3_eq, nib2_eq, nib1_eq, nib0_eq, h3, h0]; try rfl⟩
    · exact Or.inr ⟨by simp [specDefinedEncoding, h3, h0] <;> omega,
        by unfold decode; rw [nib3_eq, nib2_eq, nib1_eq, nib0_eq, h3, h0]; try rfl⟩
    · exact Or.inr ⟨by simp [specDefinedEncoding, h3, h0] <;> omega,
        by unfold decode; rw [nib3_eq, nib2_eq, nib1_eq, nib0_eq, h3, h0]; try rfl⟩
    · exact Or.inr ⟨by simp [specDefinedEncoding, h3, h0] <;> omega,
        by unfold decode; rw [nib3_eq, nib2_eq, nib1_eq, nib0_eq, h3, h0]; try rfl⟩
    · exact Or.inr ⟨by simp [specDefinedEncoding, h3, h0] <;> omega,
        by unfold decode; rw [nib3_eq, nib2_eq, nib1_eq, nib0_eq, h3, h0]; try rfl⟩
    · exact Or.inr ⟨by simp [specDefinedEncoding, h3, h0] <;> omega,
        by unfold decode; rw [nib3_eq, nib2_eq, nib1_eq, nib0_eq, h3, h0]; try rfl⟩
    · exact Or.inr ⟨by simp [specDefinedEncoding, h3, h0] <;> omega,
        by unfold decode; rw [nib3_eq, nib2_eq, nib1_eq, nib0_eq, h3, h0]; try rfl⟩
    · exact Or.inr ⟨by simp [specDefinedEncoding, h3, h0] <;> omega,
        by unfold decode; rw [nib3_eq, nib2_eq, nib1_eq, nib0_eq, h3, h0]; try rfl⟩
    · exact Or.inr ⟨by simp [specDefinedEncoding, h3, h0] <;> omega,
        by unfold decode; rw [nib3_eq, nib2_eq, nib1_eq, nib0_eq, h3, h0]; try rfl⟩
    · exact Or.inr ⟨by simp [specDefinedEncoding, h3, h0] <;> omega,
        by unfold decode; rw [nib3_eq, nib2_eq, nib1_eq, nib0_eq, h3, h0]; try rfl⟩
    · exact Or.inr ⟨by simp [specDefinedEncoding, h3, h0] <;> omega,
        by unfold decode; rw [nib3_eq, nib2_eq, nib1_eq, nib0_eq, h3, h0]; try rfl⟩
    · exact Or.inr ⟨by simp [specDefinedEncoding, h3, h0] <;> omega,
        by unfold decode; rw [nib3_eq, nib2_eq, nib1_eq, nib0_eq, h3, h0]; try rfl⟩
    · exact Or.inr ⟨by simp [specDefinedEncoding, h3, h0] <;> omega,
        by unfold decode; rw [nib3_eq, nib2_eq, nib1_eq, nib0_eq, h3, h0]; try rfl⟩
  -- n3 = 0x6
  · exact Or.inl ⟨by simp [specDefinedEncoding, h3] <;> omega,
      ⟨_, by unfold decode; rw [nib3_eq, nib2_eq, nib1_eq, nib0_eq, h3]; try rfl,
      by unfold operandsInRange <;> (repeat' apply And.intro) <;>
        first | omega | exact assembleAddress_lt _ _ _ | exact assembleByte_lt _ _ | trivial⟩⟩
  -- n3 = 0x7
  · exact Or.inl ⟨by simp [specDefinedEncoding, h3] <;> omega,
      ⟨_, by unfold decode; rw [nib3_eq, nib2_eq, nib1_eq, nib0_eq, h3]; try rfl,
      by unfold operandsInRange <;> (repeat' apply And.intro) <;>
        first | omega | exact assembleAddress_lt _ _ _ | exact assembleByte_lt _ _ | trivial⟩⟩
  -- n3 = 0x8: ALU family, low nibble 0x0-0x7 or 0xE
  · rcases nibCases (w % 16) (by omega) with h0|h0|h0|h0|h0|h0|h0|h0|h0|h0|h0|h0|h0|h0|h0|h0
    · exact Or.inl ⟨by simp [specDefinedEncoding, h3, h0] <;> omega,
        ⟨_, by unfold decode; rw [nib3_eq, nib2_eq, nib1_eq, nib0_eq, h3, h0]; try rfl,
        by unfold operandsInRange <;> (repeat' apply And.intro) <;>
          first | omega | exact assembleAddress_lt _ _ _ | exact assembleByte_lt _ _ | trivial⟩⟩
    · exact Or.inl ⟨by simp [specDefinedEncoding, h3, h0] <;> omega,
        ⟨_, by unfold decode; rw [nib3_eq, nib2_eq, nib1_eq, nib0_eq, h3, h0]; try rfl,
        by unfold operandsInRange <;> (repeat' apply And.intro) <;>
          first | omega | exact assembleAddress_lt _ _ _ | exact assembleByte_lt _ _ | trivial⟩⟩
    · exact Or.inl ⟨by simp [specDefinedEncoding, h3, h0] <;> omega,
        ⟨_, by unfold decode; rw [nib3_eq, nib2_eq, nib1_eq, nib0_eq, h3, h0]; try rfl,
        by unfold operandsInRange <;> (repeat' apply And.intro) <;>
          first | omega | exact assembleAddress_lt _ _ _ | exact assembleByte_lt _ _ | trivial⟩⟩
    · exact Or.inl ⟨by simp [specDefinedEncoding, h3, h0] <;> omega,
        ⟨_, by unfold decode; rw [nib3_eq, nib2_eq, nib1_eq, nib0_eq, h3, h0]; try rfl,
        by unfold operandsInRange <;> (repeat' apply And.intro) <;>
          first | omega | exact assembleAddress_lt _ _ _ | exact assembleByte_lt _ _ | trivial⟩⟩
    · exact Or.inl ⟨by simp [specDefinedEncoding, h3, h0] <;> omega,
        ⟨_, by unfold decode; rw [nib3_eq, nib2_eq, nib1_eq, nib0_eq, h3, h0]; try rfl,
        by unfold operandsInRange <;> (repeat' apply And.intro) <;>
          first | omega | exact assembleAddress_lt _ _ _ | exact assembleByte_lt _ _ | trivial⟩⟩
    · exact Or.inl ⟨by simp [specDefinedEncoding, h3, h0] <;> omega,
        ⟨_, by unfold decode; rw [nib3_eq, nib2_eq, nib1_eq, nib0_eq, h3, h0]; try rfl,
        by unfold operandsInRange <;> (repeat' apply And.intro) <;>
          first | omega | exact assembleAddress_lt _ _ _ | exact assembleByte_lt _ _ | trivial⟩⟩
    · exact Or.inl ⟨by simp [specDefinedEncoding, h3, h0] <;> omega,
        ⟨_, by unfold decode; rw [nib3_eq, nib2_eq, nib1_eq, nib0_eq, h3, h0]; try rfl,
        by unfold operandsInRange <;> (repeat' apply And.intro) <;>
          first | omega | exact assembleAddress_lt _ _ _ | exact assembleByte_lt _ _ | trivial⟩⟩
    · exact Or.inl ⟨by simp [specDefinedEncoding, h3, h0] <;> omega,
        ⟨_, by unfold decode; rw [nib3_eq, nib2_eq, nib1_eq, nib0_eq, h3, h0]; try rfl,
        by unfold operandsInRange <;> (repeat' apply And.intro) <;>
          first | omega | exact assembleAddress_lt _ _ _ | exact assembleByte_lt _ _ | trivial⟩⟩
    · exact Or.inr ⟨by simp [specDefinedEncoding, h3, h0] <;> omega,
        by unfold decode; rw [nib3_eq, nib2_eq, nib1_eq, nib0_eq, h3, h0]; try rfl⟩
    · exact Or.inr ⟨by simp [specDefinedEncoding, h3, h0] <;> omega,
        by unfold decode; rw [nib3_eq, nib2_eq, nib1_eq, nib0_eq, h3, h0]; try rfl⟩
    · exact Or.inr ⟨by simp [specDefinedEncoding, h3, h0] <;> omega,
        by unfold decode; rw [nib3_eq, nib2_eq, nib1_eq, nib0_eq, h3, h0]; try rfl⟩
    · exact Or.inr ⟨by simp [specDefinedEncoding, h3, h0] <;> omega,
        by unfold decode; rw [nib3_eq, nib2_eq, nib1_eq, nib0_eq, h3, h0]; try rfl⟩
    · exact Or.inr ⟨by simp [specDefinedEncoding, h3, h0] <;> omega,
        by unfold decode; rw [nib3_eq, nib2_eq, nib1_eq, nib0_eq, h3, h0]; try rfl⟩
    · exact Or.inr ⟨by simp [specDefinedEncoding, h3, h0] <;> omega,
        by unfold decode; rw [nib3_eq, nib2_eq, nib1_eq, nib0_eq, h3, h0]; try rfl⟩
    · exact Or.inl ⟨by simp [specDefinedEncoding, h3, h0] <;> omega,
        ⟨_, by unfold decode; rw [nib3_eq, nib2_eq, nib1_eq, nib0_eq, h3, h0]; try rfl,
        by unfold operandsInRange <;> (repeat' apply And.intro) <;>
          first | omega | exact assembleAddress_lt _ _ _ | exact assembleByte_lt _ _ | trivial⟩⟩
    · exact Or.inr ⟨by simp [specDefinedEncoding, h3, h0] <;> omega,
        by unfold decode; rw [nib3_eq, nib2_eq, nib1_eq, nib0_eq, h3, h0]; try rfl⟩
  -- n3 = 0x9: defined only when the low nibble is 0
  · rcases nibCases (w % 16) (by omega) with h0|h0|h0|h0|h0|h0|h0|h0|h0|h0|h0|h0|h0|h0|h0|h0
    · exact Or.inl ⟨by simp [specDefinedEncoding, h3, h0] <;> omega,
        ⟨_, by unfold decode; rw [nib3_eq, nib2_eq, nib1_eq, nib0_eq, h3, h0]; try rfl,
        by unfold operandsInRange <;> (repeat' apply And.intro) <;>
          first | omega | exact assembleAddress_lt _ _ _ | exact assembleByte_lt _ _ | trivial⟩⟩
    · exact Or.inr ⟨by simp [specDefinedEncoding, h3, h0] <;> omega,
        by unfold decode; rw [nib3_eq, nib2_eq, nib1_eq, nib0_eq, h3, h0]; try rfl⟩
    · exact Or.inr ⟨by simp [specDefinedEncoding, h3, h0] <;> omega,
        by unfold decode; rw [nib3_eq, nib2_eq, nib1_eq, nib0_eq, h3, h0]; try rfl⟩
    · exact Or.inr ⟨by simp [specDefinedEncoding, h3, h0] <;> omega,
        by unfold decode; rw [nib3_eq, nib2_eq, nib1_eq, nib0_eq, h3, h0]; try rfl⟩
    · exact Or.inr ⟨by simp [specDefinedEncoding, h3, h0] <;> omega,
        by unfold decode; rw [nib3_eq, nib2_eq, nib1_eq, nib0_eq, h3, h0]; try rfl⟩
    · exact Or.inr ⟨by simp [specDefinedEncoding, h3, h0] <;> omega,
        by unfold decode; rw [nib3_eq, nib2_eq, nib1_eq, nib0_eq, h3, h0]; try rfl⟩
    · exact Or.inr ⟨by simp [specDefinedEncoding, h3, h0] <;> omega,
        by unfold decode; rw [nib3_eq, nib2_eq, nib1_eq, nib0_eq, h3, h0]; try rfl⟩
    · exact Or.inr ⟨by simp [specDefinedEncoding, h3, h0] <;> omega,
        by unfold decode; rw [nib3_eq, nib2_eq, nib1_eq, nib0_eq, h3, h0]; try rfl⟩
    · exact Or.inr ⟨by simp [specDefinedEncoding, h3, h0] <;> omega,
        by unfold decode; rw [nib3_eq, nib2_eq, nib1_eq, nib0_eq, h3, h0]; try rfl⟩
    · exact Or.inr ⟨by simp [specDefinedEncoding, h3, h0] <;> omega,
        by unfold decode; rw [nib3_eq, nib2_eq, nib1_eq, nib0_eq, h3, h0]; try rfl⟩
    · exact Or.inr ⟨by simp [specDefinedEncoding, h3, h0] <;> omega,
        by unfold decode; rw [nib3_eq, nib2_eq, nib1_eq, nib0_eq, h3, h0]; try rfl⟩
    · exact Or.inr ⟨by simp [specDefinedEncoding, h3, h0] <;> omega,
        by unfold decode; rw [nib3_eq, nib2_eq, nib1_eq, nib0_eq, h3, h0]; try rfl⟩
    · exact Or.inr ⟨by simp [specDefinedEncoding, h3, h0] <;> omega,
        by unfold decode; rw [nib3_eq, nib2_eq, nib1_eq, nib0_eq, h3, h0]; try rfl⟩
    · exact Or.inr ⟨by simp [specDefinedEncoding, h3, h0] <;> omega,
        by unfold decode; rw [nib3_eq, nib2_eq, nib1_eq, nib0_eq, h3, h0]; try rfl⟩
    · exact Or.inr ⟨by simp [specDefinedEncoding, h3, h0] <;> omega,
        by unfold decode; rw [nib3_eq, nib2_eq, nib1_eq, nib0_eq, h3, h0]; try rfl⟩
    · exact Or.inr ⟨by simp [specDefinedEncoding, h3, h0] <;> omega,
        by unfold decode; rw [nib3_eq, nib2_eq, nib1_eq, nib0_eq, h3, h0]; try rfl⟩
  -- n3 = 0xa
  · exact Or.inl ⟨by simp [specDefinedEncoding, h3] <;> omega,
      ⟨_, by unfold decode; rw [nib3_eq, nib2_eq, nib1_eq, nib0_eq, h3]; try rfl,
      by unfold operandsInRange <;> (repeat' apply And.intro) <;>
        first | omega | exact assembleAddress_lt _ _ _ | exact assembleByte_lt _ _ | trivial⟩⟩
  -- n3 = 0xb
  · exact Or.inl ⟨by simp [specDefinedEncoding, h3] <;> omega,
      ⟨_, by unfold decode; rw [nib3_eq, nib2_eq, nib1_eq, nib0_eq, h3]; try rfl,
      by unfold operandsInRange <;> (repeat' apply And.intro) <;>
        first | omega | exact assembleAddress_lt _ _ _ | exact assembleByte_lt _ _ | trivial⟩⟩
  -- n3 = 0xc
  · exact Or.inl ⟨by simp [specDefinedEncoding, h3] <;> omega,
      ⟨_, by unfold decode; rw [nib3_eq, nib2_eq, nib1_eq, nib0_eq, h3]; try rfl,
      by unfold operandsInRange <;> (repeat' apply And.intro) <;>
        first | omega | exact assembleAddress_lt _ _ _ | exact assembleByte_lt _ _ | trivial⟩⟩
  -- n3 = 0xd
  · exact Or.inl ⟨by simp [specDefinedEncoding, h3] <;> omega,
      ⟨_, by unfold decode; rw [nib3_eq, nib2_eq, nib1_eq, nib0_eq, h3]; try rfl,
      by unfold operandsInRange <;> (repeat' apply And.intro) <;>
        first | omega | exact assembleAddress_lt _ _ _ | exact assembleByte_lt _ _ | trivial⟩⟩
  -- n3 = 0xE: defined only for low bytes 0x9E and 0xA1
  · rcases nibCases (w / 16 % 16) (by omega) with h1|h1|h1|h1|h1|h1|h1|h1|h1|h1|h1|h1|h1|h1|h1|h1
    · exact Or.inr ⟨by simp [specDefinedEncoding, h3, h1] <;> omega,
        by unfold decode; rw [nib3_eq, nib2_eq, nib1_eq, nib0_eq, h3, h1]; try rfl⟩
    · exact Or.inr ⟨by simp [specDefinedEncoding, h3, h1] <;> omega,
        by unfold decode; rw [nib3_eq, nib2_eq, nib1_eq, nib0_eq, h3, h1]; try rfl⟩
    · exact Or.inr ⟨by simp [specDefinedEncoding, h3, h1] <;> omega,
        by unfold decode; rw [nib3_eq, nib2_eq, nib1_eq, nib0_eq, h3, h1]; try rfl⟩
    · exact Or.inr ⟨by simp [specDefinedEncoding, h3, h1] <;> omega,
        by unfold decode; rw [nib3_eq, nib2_eq, nib1_eq, nib0_eq, h3, h1]; try rfl⟩
    · exact Or.inr ⟨by simp [specDefinedEncoding, h3, h1] <;> omega,
        by unfold decode; rw [nib3_eq, nib2_eq, nib1_eq, nib0_eq, h3, h1]; try rfl⟩
    · exact Or.inr ⟨by simp [specDefinedEncoding, h3, h1] <;> omega,
        by unfold decode; rw [nib3_eq, nib2_eq, nib1_eq, nib0_eq, h3, h1]; try rfl⟩
    · exact Or.inr ⟨by simp [specDefinedEncoding, h3, h1] <;> omega,
        by unfold decode; rw [nib3_eq, nib2_eq, nib1_eq, nib0_eq, h3, h1]; try rfl⟩
    · exact Or.inr ⟨by simp [specDefinedEncoding, h3, h1] <;> omega,
        by unfold decode; rw [nib3_eq, nib2_eq, nib1_eq, nib0_eq, h3, h1]; try rfl⟩
    · exact Or.inr ⟨by simp [specDefinedEncoding, h3, h1] <;> omega,
        by unfold decode; rw [nib3_eq, nib2_eq, nib1_eq, nib0_eq, h3, h1]; try rfl⟩
    · -- n1 = 9: SKP when n0 = 0xE
      rcases nibCases (w % 16) (by omega) with h0|h0|h0|h0|h0|h0|h0|h0|h0|h0|h0|h0|h0|h0|h0|h0
      · exact Or.inr ⟨by simp [specDefinedEncoding, h3, h1, h0] <;> omega,
          by unfold decode; rw [nib3_eq, nib2_eq, nib1_eq, nib0_eq, h3, h1, h0]; try rfl⟩
      · exact Or.inr ⟨by simp [specDefinedEncoding, h3, h1, h0] <;> omega,
          by unfold decode; rw [nib3_eq, nib2_eq, nib1_eq, nib0_eq, h3, h1, h0]; try rfl⟩
      · exact Or.inr ⟨by simp [specDefinedEncoding, h3, h1, h0] <;> omega,
          by unfold decode; rw [nib3_eq, nib2_eq, nib1_eq, nib0_eq, h3, h1, h0]; try rfl⟩
      · exact Or.inr ⟨by simp [specDefinedEncoding, h3, h1, h0] <;> omega,
          by unfold decode; rw [nib3_eq, nib2_eq, nib1_eq, nib0_eq, h3, h1, h0]; try rfl⟩
      · exact Or.inr ⟨by simp [specDefinedEncoding, h3, h1, h0] <;> omega,
          by unfold decode; rw [nib3_eq, nib2_eq, nib1_eq, nib0_eq, h3, h1, h0]; try rfl⟩
      · exact Or.inr ⟨by simp [specDefinedEncoding, h3, h1, h0] <;> omega,
          by unfold decode; rw [nib3_eq, nib2_eq, nib1_eq, nib0_eq, h3, h1, h0]; try rfl⟩
      · exact Or.inr ⟨by simp [specDefinedEncoding, h3, h1, h0] <;> omega,
          by unfold decode; rw [nib3_eq, nib2_eq, nib1_eq, nib0_eq, h3, h1, h0]; try rfl⟩
      · exact Or.inr ⟨by simp [specDefinedEncoding, h3, h1, h0] <;> omega,
          by unfold decode; rw [nib3_eq, nib2_eq, nib1_eq, nib0_eq, h3, h1, h0]; try rfl⟩
      · exact Or.inr ⟨by simp [specDefinedEncoding, h3, h1, h0] <;> omega,
          by unfold decode; rw [nib3_eq, nib2_eq, nib1_eq, nib0_eq, h3, h1, h0]; try rfl⟩
      · exact Or.inr ⟨by simp [specDefinedEncoding, h3, h1, h0] <;> omega,
          by unfold decode; rw [nib3_eq, nib2_eq, nib1_eq, nib0_eq, h3, h1, h0]; try rfl⟩
      · exact Or.inr ⟨by simp [specDefinedEncoding, h3, h1, h0] <;> omega,
          by unfold decode; rw [nib3_eq, nib2_eq, nib1_eq, nib0_eq, h3, h1, h0]; try rfl⟩
      · exact Or.inr ⟨by simp [specDefinedEncoding, h3, h1, h0] <;> omega,
          by unfold decode; rw [nib3_eq, nib2_eq, nib1_eq, nib0_eq, h3, h1, h0]; try rfl⟩
      · exact Or.inr ⟨by simp [specDefinedEncoding, h3, h1, h0] <;> omega,
          by unfold decode; rw [nib3_eq, nib2_eq, nib1_eq, nib0_eq, h3, h1, h0]; try rfl⟩
      · exact Or.inr ⟨by simp [specDefinedEncoding, h3, h1, h0] <;> omega,
          by unfold decode; rw [nib3_eq, nib2_eq, nib1_eq, nib0_eq, h3, h1, h0]; try rfl⟩
      · exact Or.inl ⟨by simp [specDefinedEncoding, h3, h1, h0] <;> omega,
          ⟨_, by unfold decode; rw [nib3_eq, nib2_eq, nib1_eq, nib0_eq, h3, h1, h0]; try rfl,
          by unfold operandsInRange <;> (repeat' apply And.intro) <;>
            first | omega | exact assembleAddress_lt _ _ _ | exact assembleByte_lt _ _ | trivial⟩⟩
      · exact Or.inr ⟨by simp [specDefinedEncoding, h3, h1, h0] <;> omega,
          by unfold decode; rw [nib3_eq, nib2_eq, nib1_eq, nib0_eq, h3, h1, h0]; try rfl⟩
    · -- n1 = 0xA: SKNP when n0 = 1
      rcases nibCases (w % 16) (by omega) with h0|h0|h0|h0|h0|h0|h0|h0|h0|h0|h0|h0|h0|h0|h0|h0
      · exact Or.inr ⟨by simp [specDefinedEncoding, h3, h1, h0] <;> omega,
          by unfold decode; rw [nib3_eq, nib2_eq, nib1_eq, nib0_eq, h3, h1, h0]; try rfl⟩
      · exact Or.inl ⟨by simp [specDefinedEncoding, h3, h1, h0] <;> omega,
          ⟨_, by unfold decode; rw [nib3_eq, nib2_eq, nib1_eq, nib0_eq, h3, h1, h0]; try rfl,
          by unfold operandsInRange <;> (repeat' apply And.intro) <;>
            first | omega | exact assembleAddress_lt _ _ _ | exact assembleByte_lt _ _ | trivial⟩⟩
      · exact Or.inr ⟨by simp [specDefinedEncoding, h3, h1, h0] <;> omega,
          by unfold decode; rw [nib3_eq, nib2_eq, nib1_eq, nib0_eq, h3, h1, h0]; try rfl⟩
      · exact Or.inr ⟨by simp [specDefinedEncoding, h3, h1, h0] <;> omega,
          by unfold decode; rw [nib3_eq, nib2_eq, nib1_eq, nib0_eq, h3, h1, h0]; try rfl⟩
      · exact Or.inr ⟨by simp [specDefinedEncoding, h3, h1, h0] <;> omega,
          by unfold decode; rw [nib3_eq, nib2_eq, nib1_eq, nib0_eq, h3, h1, h0]; try rfl⟩
      · exact Or.inr ⟨by simp [specDefinedEncoding, h3, h1, h0] <;> omega,
          by unfold decode; rw [nib3_eq, nib2_eq, nib1_eq, nib0_eq, h3, h1, h0]; try rfl⟩
      · exact Or.inr ⟨by simp [specDefinedEncoding, h3, h1, h0] <;> omega,
          by unfold decode; rw [nib3_eq, nib2_eq, nib1_eq, nib0_eq, h3, h1, h0]; try rfl⟩
      · exact Or.inr ⟨by simp [specDefinedEncoding, h3, h1, h0] <;> omega,
          by unfold decode; rw [nib3_eq, nib2_eq, nib1_eq, nib0_eq, h3, h1, h0]; try rfl⟩
      · exact Or.inr ⟨by simp [specDefinedEncoding, h3, h1, h0] <;> omega,
          by unfold decode; rw [nib3_eq, nib2_eq, nib1_eq, nib0_eq, h3, h1, h0]; try rfl⟩
      · exact Or.inr ⟨by simp [specDefinedEncoding, h3, h1, h0] <;> omega,
          by unfold decode; rw [nib3_eq, nib2_eq, nib1_eq, nib0_eq, h3, h1, h0]; try rfl⟩
      · exact Or.inr ⟨by simp [specDefinedEncoding, h3, h1, h0] <;> omega,
          by unfold decode; rw [nib3_eq, nib2_eq, nib1_eq, nib0_eq, h3, h1, h0]; try rfl⟩
      · exact Or.inr ⟨by simp [specDefinedEncoding, h3, h1, h0] <;> omega,
          by unfold decode; rw [nib3_eq, nib2_eq, nib1_eq, nib0_eq, h3, h1, h0]; try rfl⟩
      · exact Or.inr ⟨by simp [specDefinedEncoding, h3, h1, h0] <;> omega,
          by unfold decode; rw [nib3_eq, nib2_eq, nib1_eq, nib0_eq, h3, h1, h0]; try rfl⟩
      · exact Or.inr ⟨by simp [specDefinedEncoding, h3, h1, h0] <;> omega,
          by unfold decode; rw [nib3_eq, nib2_eq, nib1_eq, nib0_eq, h3, h1, h0]; try rfl⟩
      · exact Or.inr ⟨by simp [specDefinedEncoding, h3, h1, h0] <;> omega,
          by unfold decode; rw [nib3_eq, nib2_eq, nib1_eq, nib0_eq, h3, h1, h0]; try rfl⟩
      · exact Or.inr ⟨by simp [specDefinedEncoding, h3, h1, h0] <;> omega,
          by unfold decode; rw [nib3_eq, nib2_eq, nib1_eq, nib0_eq, h3, h1, h0]; try rfl⟩
    · exact Or.inr ⟨by simp [specDefinedEncoding, h3, h1] <;> omega,
        by unfold decode; rw [nib3_eq, nib2_eq, nib1_eq, nib0_eq, h3, h1]; try rfl⟩
    · exact Or.inr ⟨by simp [specDefinedEncoding, h3, h1] <;> omega,
        by unfold decode; rw [nib3_eq, nib2_eq, nib1_eq, nib0_eq, h3, h1]; try rfl⟩
    · exact Or.inr ⟨by simp [specDefinedEncoding, h3, h1] <;> omega,
        by unfold decode; rw [nib3_eq, nib2_eq, nib1_eq, nib0_eq, h3, h1]; try rfl⟩
    · exact Or.inr ⟨by simp [specDefinedEncoding, h3, h1] <;> omega,
        by unfold decode; rw [nib3_eq, nib2_eq, nib1_eq, nib0_eq, h3, h1]; try rfl⟩
    · exact Or.inr ⟨by simp [specDefinedEncoding, h3, h1] <;> omega,
        by unfold decode; rw [nib3_eq, nib2_eq, nib1_eq, nib0_eq, h3, h1]; try rfl⟩
  -- n3 = 0xF: nine low-byte selected sub-ops
  · rcases nibCases (w / 16 % 16) (by omega) with h1|h1|h1|h1|h1|h1|h1|h1|h1|h1|h1|h1|h1|h1|h1|h1
    · -- n1 = 0x0
      rcases nibCases (w % 16) (by omega) with h0|h0|h0|h0|h0|h0|h0|h0|h0|h0|h0|h0|h0|h0|h0|h0
      · exact Or.inr ⟨by simp [specDefinedEncoding, h3, h1, h0] <;> omega,
          by unfold decode; rw [nib3_eq, nib2_eq, nib1_eq, nib0_eq, h3, h1, h0]; try rfl⟩
      · exact Or.inr ⟨by simp [specDefinedEncoding, h3, h1, h0] <;> omega,
          by unfold decode; rw [nib3_eq, nib2_eq, nib1_eq, nib0_eq, h3, h1, h0]; try rfl⟩
      · exact Or.inr ⟨by simp [specDefinedEncoding, h3, h1, h0] <;> omega,
          by unfold decode; rw [nib3_eq, nib2_eq, nib1_eq, nib0_eq, h3, h1, h0]; try rfl⟩
      · exact Or.inr ⟨by simp [specDefinedEncoding, h3, h1, h0] <;> omega,
          by unfold decode; rw [nib3_eq, nib2_eq, nib1_eq, nib0_eq, h3, h1, h0]; try rfl⟩
      · exact Or.inr ⟨by simp [specDefinedEncoding, h3, h1, h0] <;> omega,
          by unfold decode; rw [nib3_eq, nib2_eq, nib1_eq, nib0_eq, h3, h1, h0]; try rfl⟩
      · exact Or.inr ⟨by simp [specDefinedEncoding, h3, h1, h0] <;> omega,
          by unfold decode; rw [nib3_eq, nib2_eq, nib1_eq, nib0_eq, h3, h1, h0]; try rfl⟩
      · exact Or.inr ⟨by simp [specDefinedEncoding, h3, h1, h0] <;> omega,
          by unfold decode; rw [nib3_eq, nib2_eq, nib1_eq, nib0_eq, h3, h1, h0]; try rfl⟩
      · exact Or.inl ⟨by simp [specDefinedEncoding, h3, h1, h0] <;> omega,
          ⟨_, by unfold decode; rw [nib3_eq, nib2_eq, nib1_eq, nib0_eq, h3, h1, h0]; try rfl,
          by unfold operandsInRange <;> (repeat' apply And.intro) <;>
            first | omega | exact assembleAddress_lt _ _ _ | exact assembleByte_lt _ _ | trivial⟩⟩
      · exact Or.inr ⟨by simp [specDefinedEncoding, h3, h1, h0] <;> omega,
          by unfold decode; rw [nib3_eq, nib2_eq, nib1_eq, nib0_eq, h3, h1, h0]; try rfl⟩
      · exact Or.inr ⟨by simp [specDefinedEncoding, h3, h1, h0] <;> omega,
          by unfold decode; rw [nib3_eq, nib2_eq, nib1_eq, nib0_eq, h3, h1, h0]; try rfl⟩
      · exact Or.inl ⟨by simp [specDefinedEncoding, h3, h1, h0] <;> omega,
          ⟨_, by unfold decode; rw [nib3_eq, nib2_eq, nib1_eq, nib0_eq, h3, h1, h0]; try rfl,
          by unfold operandsInRange <;> (repeat' apply And.intro) <;>
            first | omega | exact assembleAddress_lt _ _ _ | exact assembleByte_lt _ _ | trivial⟩⟩
      · exact Or.inr ⟨by simp [specDefinedEncoding, h3, h1, h0] <;> omega,
          by unfold decode; rw [nib3_eq, nib2_eq, nib1_eq, nib0_eq, h3, h1, h0]; try rfl⟩
      · exact Or.inr ⟨by simp [specDefinedEncoding, h3, h1, h0] <;> omega,
          by unfold decode; rw [nib3_eq, nib2_eq, nib1_eq, nib0_eq, h3, h1, h0]; try rfl⟩
      · exact Or.inr ⟨by simp [specDefinedEncoding, h3, h1, h0] <;> omega,
          by unfold decode; rw [nib3_eq, nib2_eq, nib1_eq, nib0_eq, h3, h1, h0]; try rfl⟩
      · exact Or.inr ⟨by simp [specDefinedEncoding, h3, h1, h0] <;> omega,
          by unfold decode; rw [nib3_eq, nib2_eq, nib1_eq, nib0_eq, h3, h1, h0]; try rfl⟩
      · exact Or.inr ⟨by simp [specDefinedEncoding, h3, h1, h0] <;> omega,
          by unfold decode; rw [nib3_eq, nib2_eq, nib1_eq, nib0_eq, h3, h1, h0]; try rfl⟩
    · -- n1 = 0x1
      rcases nibCases (w % 16) (by omega) with h0|h0|h0|h0|h0|h0|h0|h0|h0|h0|h0|h0|h0|h0|h0|h0
      · exact Or.inr ⟨by simp [specDefinedEncoding, h3, h1, h0] <;> omega,
          by unfold decode; rw [nib3_eq, nib2_eq, nib1_eq, nib0_eq, h3, h1, h0]; try rfl⟩
      · exact Or.inr ⟨by simp [specDefinedEncoding, h3, h1, h0] <;> omega,
          by unfold decode; rw [nib3_eq, nib2_eq, nib1_eq, nib0_eq, h3, h1, h0]; try rfl⟩
      · exact Or.inr ⟨by simp [specDefinedEncoding, h3, h1, h0] <;> omega,
          by unfold decode; rw [nib3_eq, nib2_eq, nib1_eq, nib0_eq, h3, h1, h0]; try rfl⟩
      · exact Or.inr ⟨by simp [specDefinedEncoding, h3, h1, h0] <;> omega,
          by unfold decode; rw [nib3_eq, nib2_eq, nib1_eq, nib0_eq, h3, h1, h0]; try rfl⟩
      · exact Or.inr ⟨by simp [specDefinedEncoding, h3, h1, h0] <;> omega,
          by unfold decode; rw [nib3_eq, nib2_eq, nib1_eq, nib0_eq, h3, h1, h0]; try rfl⟩
      · exact Or.inl ⟨by simp [specDefinedEncoding, h3, h1, h0] <;> omega,
          ⟨_, by unfold decode; rw [nib3_eq, nib2_eq, nib1_eq, nib0_eq, h3, h1, h0]; try rfl,
          by unfold operandsInRange <;> (repeat' apply And.intro) <;>
            first | omega | exact assembleAddress_lt _ _ _ | exact assembleByte_lt _ _ | trivial⟩⟩
      · exact Or.inr ⟨by simp [specDefinedEncoding, h3, h1, h0] <;> omega,
          by unfold decode; rw [nib3_eq, nib2_eq, nib1_eq, nib0_eq, h3, h1, h0]; try rfl⟩
      · exact Or.inr ⟨by simp [specDefinedEncoding, h3, h1, h0] <;> omega,
          by unfold decode; rw [nib3_eq, nib2_eq, nib1_eq, nib0_eq, h3, h1, h0]; try rfl⟩
      · exact Or.inl ⟨by simp [specDefinedEncoding, h3, h1, h0] <;> omega,
          ⟨_, by unfold decode; rw [nib3_eq, nib2_eq, nib1_eq, nib0_eq, h3, h1, h0]; try rfl,
          by unfold operandsInRange <;> (repeat' apply And.intro) <;>
            first | omega | exact assembleAddress_lt _ _ _ | exact assembleByte_lt _ _ | trivial⟩⟩
      · exact Or.inr ⟨by simp [specDefinedEncoding, h3, h1, h0] <;> omega,
          by unfold decode; rw [nib3_eq, nib2_eq, nib1_eq, nib0_eq, h3, h1, h0]; try rfl⟩
      · exact Or.inr ⟨by simp [specDefinedEncoding, h3, h1, h0] <;> omega,
          by unfold decode; rw [nib3_eq, nib2_eq, nib1_eq, nib0_eq, h3, h1, h0]; try rfl⟩
      · exact Or.inr ⟨by simp [specDefinedEncoding, h3, h1, h0] <;> omega,
          by unfold decode; rw [nib3_eq, nib2_eq, nib1_eq, nib0_eq, h3, h1, h0]; try rfl⟩
      · exact Or.inr ⟨by simp [specDefinedEncoding, h3, h1, h0] <;> omega,
          by unfold decode; rw [nib3_eq, nib2_eq, nib1_eq, nib0_eq, h3, h1, h0]; try rfl⟩
      · exact Or.inr ⟨by simp [specDefinedEncoding, h3, h1, h0] <;> omega,
          by unfold decode; rw [nib3_eq, nib2_eq, nib1_eq, nib0_eq, h3, h1, h0]; try rfl⟩
      · exact Or.inl ⟨by simp [specDefinedEncoding, h3, h1, h0] <;> omega,
          ⟨_, by unfold decode; rw [nib3_eq, nib2_eq, nib1_eq, nib0_eq, h3, h1, h0]; try rfl,
          by unfold operandsInRange <;> (repeat' apply And.intro) <;>
            first | omega | exact assembleAddress_lt _ _ _ | exact assembleByte_lt _ _ | trivial⟩⟩
      · exact Or.inr ⟨by simp [specDefinedEncoding, h3, h1, h0] <;> omega,
          by unfold decode; rw [nib3_eq, nib2_eq, nib1_eq, nib0_eq, h3, h1, h0]; try rfl⟩
    · -- n1 = 0x2
      rcases nibCases (w % 16) (by omega) with h0|h0|h0|h0|h0|h0|h0|h0|h0|h0|h0|h0|h0|h0|h0|h0
      · exact Or.inr ⟨by simp [specDefinedEncoding, h3, h1, h0] <;> omega,
          by unfold decode; rw [nib3_eq, nib2_eq, nib1_eq, nib0_eq, h3, h1, h0]; try rfl⟩
      · exact Or.inr ⟨by simp [specDefinedEncoding, h3, h1, h0] <;> omega,
          by unfold decode; rw [nib3_eq, nib2_eq, nib1_eq, nib0_eq, h3, h1, h0]; try rfl⟩
      · exact Or.inr ⟨by simp [specDefinedEncoding, h3, h1, h0] <;> omega,
          by unfold decode; rw [nib3_eq, nib2_eq, nib1_eq, nib0_eq, h3, h1, h0]; try rfl⟩
      · exact Or.inr ⟨by simp [specDefinedEncoding, h3, h1, h0] <;> omega,
          by unfold decode; rw [nib3_eq, nib2_eq, nib1_eq, nib0_eq, h3, h1, h0]; try rfl⟩
      · exact Or.inr ⟨by simp [specDefinedEncoding, h3, h1, h0] <;> omega,
          by unfold decode; rw [nib3_eq, nib2_eq, nib1_eq, nib0_eq, h3, h1, h0]; try rfl⟩
      · exact Or.inr ⟨by simp [specDefinedEncoding, h3, h1, h0] <;> omega,
          by unfold decode; rw [nib3_eq, nib2_eq, nib1_eq, nib0_eq, h3, h1, h0]; try rfl⟩
      · exact Or.inr ⟨by simp [specDefinedEncoding, h3, h1, h0] <;> omega,
          by unfold decode; rw [nib3_eq, nib2_eq, nib1_eq, nib0_eq, h3, h1, h0]; try rfl⟩
      · exact Or.inr ⟨by simp [specDefinedEncoding, h3, h1, h0] <;> omega,
          by unfold decode; rw [nib3_eq, nib2_eq, nib1_eq, nib0_eq, h3, h1, h0]; try rfl⟩
      · exact Or.inr ⟨by simp [specDefinedEncoding, h3, h1, h0] <;> omega,
          by unfold decode; rw [nib3_eq, nib2_eq, nib1_eq, nib0_eq, h3, h1, h0]; try rfl⟩
      · exact Or.inl ⟨by simp [specDefinedEncoding, h3, h1, h0] <;> omega,
          ⟨_, by unfold decode; rw [nib3_eq, nib2_eq, nib1_eq, nib0_eq, h3, h1, h0]; try rfl,
          by unfold operandsInRange <;> (repeat' apply And.intro) <;>
            first | omega | exact assembleAddress_lt _ _ _ | exact assembleByte_lt _ _ | trivial⟩⟩
      · exact Or.inr ⟨by simp [specDefinedEncoding, h3, h1, h0] <;> omega,
          by unfold decode; rw [nib3_eq, nib2_eq, nib1_eq, nib0_eq, h3, h1, h0]; try rfl⟩
      · exact Or.inr ⟨by simp [specDefinedEncoding, h3, h1, h0] <;> omega,
          by unfold decode; rw [nib3_eq, nib2_eq, nib1_eq, nib0_eq, h3, h1, h0]; try rfl⟩
      · exact Or.inr ⟨by simp [specDefinedEncoding, h3, h1, h0] <;> omega,
          by unfold decode; rw [nib3_eq, nib2_eq, nib1_eq, nib0_eq, h3, h1, h0]; try rfl⟩
      · exact Or.inr ⟨by simp [specDefinedEncoding, h3, h1, h0] <;> omega,
          by unfold decode; rw [nib3_eq, nib2_eq, nib1_eq, nib0_eq, h3, h1, h0]; try rfl⟩
      · exact Or.inr ⟨by simp [specDefinedEncoding, h3, h1, h0] <;> omega,
          by unfold decode; rw [nib3_eq, nib2_eq, nib1_eq, nib0_eq, h3, h1, h0]; try rfl⟩
      · exact Or.inr ⟨by simp [specDefinedEncoding, h3, h1, h0] <;> omega,
          by unfold decode; rw [nib3_eq, nib2_eq, nib1_eq, nib0_eq, h3, h1, h0]; try rfl⟩
    · -- n1 = 0x3
      rcases nibCases (w % 16) (by omega) with h0|h0|h0|h0|h0|h0|h0|h0|h0|h0|h0|h0|h0|h0|h0|h0
      · exact Or.inr ⟨by simp [specDefinedEncoding, h3, h1, h0] <;> omega,
          by unfold decode; rw [nib3_eq, nib2_eq, nib1_eq, nib0_eq, h3, h1, h0]; try rfl⟩
      · exact Or.inr ⟨by simp [specDefinedEncoding, h3, h1, h0] <;> omega,
          by unfold decode; rw [nib3_eq, nib2_eq, nib1_eq, nib0_eq, h3, h1, h0]; try rfl⟩
      · exact Or.inr ⟨by simp [specDefinedEncoding, h3, h1, h0] <;> omega,
          by unfold decode; rw [nib3_eq, nib2_eq, nib1_eq, nib0_eq, h3, h1, h0]; try rfl⟩
      · exact Or.inl ⟨by simp [specDefinedEncoding, h3, h1, h0] <;> omega,
          ⟨_, by unfold decode; rw [nib3_eq, nib2_eq, nib1_eq, nib0_eq, h3, h1, h0]; try rfl,
          by unfold operandsInRange <;> (repeat' apply And.intro) <;>
            first | omega | exact assembleAddress_lt _ _ _ | exact assembleByte_lt _ _ | trivial⟩⟩
      · exact Or.inr ⟨by simp [specDefinedEncoding, h3, h1, h0] <;> omega,
          by unfold decode; rw [nib3_eq, nib2_eq, nib1_eq, nib0_eq, h3, h1, h0]; try rfl⟩
      · exact Or.inr ⟨by simp [specDefinedEncoding, h3, h1, h0] <;> omega,
          by unfold decode; rw [nib3_eq, nib2_eq, nib1_eq, nib0_eq, h3, h1, h0]; try rfl⟩
      · exact Or.inr ⟨by simp [specDefinedEncoding, h3, h1, h0] <;> omega,
          by unfold decode; rw [nib3_eq, nib2_eq, nib1_eq, nib0_eq, h3, h1, h0]; try rfl⟩
      · exact Or.inr ⟨by simp [specDefinedEncoding, h3, h1, h0] <;> omega,
          by unfold decode; rw [nib3_eq, nib2_eq, nib1_eq, nib0_eq, h3, h1, h0]; try rfl⟩
      · exact Or.inr ⟨by simp [specDefinedEncoding, h3, h1, h0] <;> omega,
          by unfold decode; rw [nib3_eq, nib2_eq, nib1_eq, nib0_eq, h3, h1, h0]; try rfl⟩
      · exact Or.inr ⟨by simp [specDefinedEncoding, h3, h1, h0] <;> omega,
          by unfold decode; rw [nib3_eq, nib2_eq, nib1_eq, nib0_eq, h3, h1, h0]; try rfl⟩
      · exact Or.inr ⟨by simp [specDefinedEncoding, h3, h1, h0] <;> omega,
          by unfold decode; rw [nib3_eq, nib2_eq, nib1_eq, nib0_eq, h3, h1, h0]; try rfl⟩
      · exact Or.inr ⟨by simp [specDefinedEncoding, h3, h1, h0] <;> omega,
          by unfold decode; rw [nib3_eq, nib2_eq, nib1_eq, nib0_eq, h3, h1, h0]; try rfl⟩
      · exact Or.inr ⟨by simp [specDefinedEncoding, h3, h1, h0] <;> omega,
          by unfold decode; rw [nib3_eq, nib2_eq, nib1_eq, nib0_eq, h3, h1, h0]; try rfl⟩
      · exact Or.inr ⟨by simp [specDefinedEncoding, h3, h1, h0] <;> omega,
          by unfold decode; rw [nib3_eq, nib2_eq, nib1_eq, nib0_eq, h3, h1, h0]; try rfl⟩
      · exact Or.inr ⟨by simp [specDefinedEncoding, h3, h1, h0] <;> omega,
          by unfold decode; rw [nib3_eq, nib2_eq, nib1_eq, nib0_eq, h3, h1, h0]; try rfl⟩
      · exact Or.inr ⟨by simp [specDefinedEncoding, h3, h1, h0] <;> omega,
          by unfold decode; rw [nib3_eq, nib2_eq, nib1_eq, nib0_eq, h3, h1, h0]; try rfl⟩
    · exact Or.inr ⟨by simp [specDefinedEncoding, h3, h1] <;> omega,
        by unfold decode; rw [nib3_eq, nib2_eq, nib1_eq, nib0_eq, h3, h1]; try rfl⟩
    · -- n1 = 0x5
      rcases nibCases (w % 16) (by omega) with h0|h0|h0|h0|h0|h0|h0|h0|h0|h0|h0|h0|h0|h0|h0|h0
      · exact Or.inr ⟨by simp [specDefinedEncoding, h3, h1, h0] <;> omega,
          by unfold decode; rw [nib3_eq, nib2_eq, nib1_eq, nib0_eq, h3, h1, h0]; try rfl⟩
      · exact Or.inr ⟨by simp [specDefinedEncoding, h3, h1, h0] <;> omega,
          by unfold decode; rw [nib3_eq, nib2_eq, nib1_eq, nib0_eq, h3, h1, h0]; try rfl⟩
      · exact Or.inr ⟨by simp [specDefinedEncoding, h3, h1, h0] <;> omega,
          by unfold decode; rw [nib3_eq, nib2_eq, nib1_eq, nib0_eq, h3, h1, h0]; try rfl⟩
      · exact Or.inr ⟨by simp [specDefinedEncoding, h3, h1, h0] <;> omega,
          by unfold decode; rw [nib3_eq, nib2_eq, nib1_eq, nib0_eq, h3, h1, h0]; try rfl⟩
      · exact Or.inr ⟨by simp [specDefinedEncoding, h3, h1, h0] <;> omega,
          by unfold decode; rw [nib3_eq, nib2_eq, nib1_eq, nib0_eq, h3, h1, h0]; try rfl⟩
      · exact Or.inl ⟨by simp [specDefinedEncoding, h3, h1, h0] <;> omega,
          ⟨_, by unfold decode; rw [nib3_eq, nib2_eq, nib1_eq, nib0_eq, h3, h1, h0]; try rfl,
          by unfold operandsInRange <;> (repeat' apply And.intro) <;>
            first | omega | exact assembleAddress_lt _ _ _ | exact assembleByte_lt _ _ | trivial⟩⟩
      · exact Or.inr ⟨by simp [specDefinedEncoding, h3, h1, h0] <;> omega,
          by unfold decode; rw [nib3_eq, nib2_eq, nib1_eq, nib0_eq, h3, h1, h0]; try rfl⟩
      · exact Or.inr ⟨by simp [specDefinedEncoding, h3, h1, h0] <;> omega,
          by unfold decode; rw [nib3_eq, nib2_eq, nib1_eq, nib0_eq, h3, h1, h0]; try rfl⟩
      · exact Or.inr ⟨by simp [specDefinedEncoding, h3, h1, h0] <;> omega,
          by unfold decode; rw [nib3_eq, nib2_eq, nib1_eq, nib0_eq, h3, h1, h0]; try rfl⟩
      · exact Or.inr ⟨by simp [specDefinedEncoding, h3, h1, h0] <;> omega,
          by unfold decode; rw [nib3_eq, nib2_eq, nib1_eq, nib0_eq, h3, h1, h0]; try rfl⟩
      · exact Or.inr ⟨by simp [specDefinedEncoding, h3, h1, h0] <;> omega,
          by unfold decode; rw [nib3_eq, nib2_eq, nib1_eq, nib0_eq, h3, h1, h0]; try rfl⟩
      · exact Or.inr ⟨by simp [specDefinedEncoding, h3, h1, h0] <;> omega,
          by unfold decode; rw [nib3_eq, nib2_eq, nib1_eq, nib0_eq, h3, h1, h0]; try rfl⟩
      · exact Or.inr ⟨by simp [specDefinedEncoding, h3, h1, h0] <;> omega,
          by unfold decode; rw [nib3_eq, nib2_eq, nib1_eq, nib0_eq, h3, h1, h0]; try rfl⟩
      · exact Or.inr ⟨by simp [specDefinedEncoding, h3, h1, h0] <;> omega,
          by unfold decode; rw [nib3_eq, nib2_eq, nib1_eq, nib0_eq, h3, h1, h0]; try rfl⟩
      · exact Or.inr ⟨by simp [specDefinedEncoding, h3, h1, h0] <;> omega,
          by unfold decode; rw [nib3_eq, nib2_eq, nib1_eq, nib0_eq, h3, h1, h0]; try rfl⟩
      · exact Or.inr ⟨by simp [specDefinedEncoding, h3, h1, h0] <;> omega,
          by unfold decode; rw [nib3_eq, nib2_eq, nib1_eq, nib0_eq, h3, h1, h0]; try rfl⟩
    · -- n1 = 0x6
      rcases nibCases (w % 16) (by omega) with h0|h0|h0|h0|h0|h0|h0|h0|h0|h0|h0|h0|h0|h0|h0|h0
      · exact Or.inr ⟨by simp [specDefinedEncoding, h3, h1, h0] <;> omega,
          by unfold decode; rw [nib3_eq, nib2_eq, nib1_eq, nib0_eq, h3, h1, h0]; try rfl⟩
      · exact Or.inr ⟨by simp [specDefinedEncoding, h3, h1, h0] <;> omega,
          by unfold decode; rw [nib3_eq, nib2_eq, nib1_eq, nib0_eq, h3, h1, h0]; try rfl⟩
      · exact Or.inr ⟨by simp [specDefinedEncoding, h3, h1, h0] <;> omega,
          by unfold decode; rw [nib3_eq, nib2_eq, nib1_eq, nib0_eq, h3, h1, h0]; try rfl⟩
      · exact Or.inr ⟨by simp [specDefinedEncoding, h3, h1, h0] <;> omega,
          by unfold decode; rw [nib3_eq, nib2_eq, nib1_eq, nib0_eq, h3, h1, h0]; try rfl⟩
      · exact Or.inr ⟨by simp [specDefinedEncoding, h3, h1, h0] <;> omega,
          by unfold decode; rw [nib3_eq, nib2_eq, nib1_eq, nib0_eq, h3, h1, h0]; try rfl⟩
      · exact Or.inl ⟨by simp [specDefinedEncoding, h3, h1, h0] <;> omega,
          ⟨_, by unfold decode; rw [nib3_eq, nib2_eq, nib1_eq, nib0_eq, h3, h1, h0]; try rfl,
          by unfold operandsInRange <;> (repeat' apply And.intro) <;>
            first | omega | exact assembleAddress_lt _ _ _ | exact assembleByte_lt _ _ | trivial⟩⟩
      · exact Or.inr ⟨by simp [specDefinedEncoding, h3, h1, h0] <;> omega,
          by unfold decode; rw [nib3_eq, nib2_eq, nib1_eq, nib0_eq, h3, h1, h0]; try rfl⟩
      · exact Or.inr ⟨by simp [specDefinedEncoding, h3, h1, h0] <;> omega,
          by unfold decode; rw [nib3_eq, nib2_eq, nib1_eq, nib0_eq, h3, h1, h0]; try rfl⟩
      · exact Or.inr ⟨by simp [specDefinedEncoding, h3, h1, h0] <;> omega,
          by unfold decode; rw [nib3_eq, nib2_eq, nib1_eq, nib0_eq, h3, h1, h0]; try rfl⟩
      · exact Or.inr ⟨by simp [specDefinedEncoding, h3, h1, h0] <;> omega,
          by unfold decode; rw [nib3_eq, nib2_eq, nib1_eq, nib0_eq, h3, h1, h0]; try rfl⟩
      · exact Or.inr ⟨by simp [specDefinedEncoding, h3, h1, h0] <;> omega,
          by unfold decode; rw [nib3_eq, nib2_eq, nib1_eq, nib0_eq, h3, h1, h0]; try rfl⟩
      · exact Or.inr ⟨by simp [specDefinedEncoding, h3, h1, h0] <;> omega,
          by unfold decode; rw [nib3_eq, nib2_eq, nib1_eq, nib0_eq, h3, h1, h0]; try rfl⟩
      · exact Or.inr ⟨by simp [specDefinedEncoding, h3, h1, h0] <;> omega,
          by unfold decode; rw [nib3_eq, nib2_eq, nib1_eq, nib0_eq, h3, h1, h0]; try rfl⟩
      · exact Or.inr ⟨by simp [specDefinedEncoding, h3, h1, h0] <;> omega,
          by unfold decode; rw [nib3_eq, nib2_eq, nib1_eq, nib0_eq, h3, h1, h0]; try rfl⟩
      · exact Or.inr ⟨by simp [specDefinedEncoding, h3, h1, h0] <;> omega,
          by unfold decode; rw [nib3_eq, nib2_eq, nib1_eq, nib0_eq, h3, h1, h0]; try rfl⟩
      · exact Or.inr ⟨by simp [specDefinedEncoding, h3, h1, h0] <;> omega,
          by unfold decode; rw [nib3_eq, nib2_eq, nib1_eq, nib0_eq, h3, h1, h0]; try rfl⟩
    · exact Or.inr ⟨by simp [specDefinedEncoding, h3, h1] <;> omega,
        by unfold decode; rw [nib3_eq, nib2_eq, nib1_eq, nib0_eq, h3, h1]; try rfl⟩
    · exact Or.inr ⟨by simp [specDefinedEncoding, h3, h1] <;> omega,
        by unfold decode; rw [nib3_eq, nib2_eq, nib1_eq, nib0_eq, h3, h1]; try rfl⟩
    · exact Or.inr ⟨by simp [specDefinedEncoding, h3, h1] <;> omega,
        by unfold decode; rw [nib3_eq, nib2_eq, nib1_eq, nib0_eq, h3, h1]; try rfl⟩
    · exact Or.inr ⟨by simp [specDefinedEncoding, h3, h1] <;> omega,
        by unfold decode; rw [nib3_eq, nib2_eq, nib1_eq, nib0_eq, h3, h1]; try rfl⟩
    · exact Or.inr ⟨by simp [specDefinedEncoding, h3, h1] <;> omega,
        by unfold decode; rw [nib3_eq, nib2_eq, nib1_eq, nib0_eq, h3, h1]; try rfl⟩
    · exact Or.inr ⟨by simp [specDefinedEncoding, h3, h1] <;> omega,
        by unfold decode; rw [nib3_eq, nib2_eq, nib1_eq, nib0_eq, h3, h1]; try rfl⟩
    · exact Or.inr ⟨by simp [specDefinedEncoding, h3, h1] <;> omega,
        by unfold decode; rw [nib3_eq, nib2_eq, nib1_eq, nib0_eq, h3, h1]; try rfl⟩
    · exact Or.inr ⟨by simp [specDefinedEncoding, h3, h1] <;> omega,
        by unfold decode; rw [nib3_eq, nib2_eq, nib1_eq, nib0_eq, h3, h1]; try rfl⟩
    · exact Or.inr ⟨by simp [specDefinedEncoding, h3, h1] <;> omega,
        by unfold decode; rw [nib3_eq, nib2_eq, nib1_eq, nib0_eq, h3, h1]; try rfl⟩

/-- `FONT_BASE_ADDRESS` in src/cpu.rs. -/
def FONT_BASE_ADDRESS : Nat := 0x100

/-- `FONT_CHAR_SIZE` in src/cpu.rs: font sprites are 5 bytes long. -/
def FONT_CHAR_SIZE : Nat := 5

/-- The `Stack` struct of src/cpu.rs: 16 `u16` slots and a stack pointer.
The `[u16; 16]` array is embedded as a total function; the code only ever
indexes it at `sp`, which its own wrap logic keeps in `0..=15` (stated as
a hypothesis where a theorem needs it). -/
structure Stack where
  bytes : Nat → Nat
  sp : Nat

namespace Stack

/-- `Stack::new`. -/
def new : Stack := ⟨fun _ => 0, 0⟩

/-- `Stack::push`: store at `sp`, increment, wrap past the end to 0. -/
def push (s : Stack) (data : Nat) : Stack :=
  let sp' := s.sp + 1
  { bytes := Function.update s.bytes s.sp data
    sp := if sp' > 15 then 0 else sp' }

/-- `Stack::pop`: decrement `sp` (wrapping 0 to 15), then read the slot;
returns the popped value together with the mutated stack. -/
def pop (s : Stack) : Nat × Stack :=
  let sp' := if s.sp = 0 then 15 else s.sp - 1
  (s.bytes sp', { bytes := s.bytes, sp := sp' })

end Stack

/-- The `Cpu` struct of src/cpu.rs.  `pc` and `index` are `u16`, the
register file is `[u8; 16]` and memory `[u8; 4096]`, both embedded as
total functions (memory accesses are bounds-checked in `Except`, register
indices come from 4-bit decoded fields). -/
structure Cpu where
  pc : Nat
  index : Nat
  reg : Nat → Nat
  delayTimer : Nat
  soundTimer : Nat
  memory : Nat → Nat
  stack : Stack

namespace Cpu

/-- `Cpu::new`. -/
def new : Cpu :=
  { pc := 0x200
    index := 0
    reg := fun _ => 0
    delayTimer := 0
    soundTimer := 0
    memory := fun _ => 0
    stack := Stack.new }

end Cpu

/-- Reading `self.memory[a]`: Rust's bounds-checked indexing into the
4096-byte array; an out-of-range index panics naming the index. -/
def memRead (c : Cpu) (a : Nat) : Except Fault Nat :=
  if a < 4096 then .ok (c.memory a) else .error (.oob a)

/-- Writing `mem[a] = v` through Rust's bounds-checked indexing. -/
def memWrite (mem : Nat → Nat) (a v : Nat) : Except Fault (Nat → Nat) :=
  if a < 4096 then .ok (Function.update mem a v) else .error (.oob a)

/-- The `LdMemReg` loop of `Cpu::cycle`:
`for i in 0..=vx { self.memory[self.index as usize + i] = self.reg[i] }`,
unrolled as `count` remaining iterations starting at loop variable `i`. -/
def storeRegsAux (reg : Nat → Nat) (index : Nat) :
    Nat → Nat → (Nat → Nat) → Except Fault (Nat → Nat)
  | 0, _, mem => .ok mem
  | count + 1, i, mem =>
    match memWrite mem (index + i) (reg i) with
    | .ok mem' => storeRegsAux reg index count (i + 1) mem'
    | .error e => .error e

/-- The `LdRegMem` loop of `Cpu::cycle`:
`for i in 0..=vx { self.reg[i] = self.memory[self.index as usize + i] }`. -/
def loadRegsAux (mem : Nat → Nat) (index : Nat) :
    Nat → Nat → (Nat → Nat) → Except Fault (Nat → Nat)
  | 0, _, reg => .ok reg
  | count + 1, i, reg =>
    if index + i < 4096 then
      loadRegsAux mem index count (i + 1) (Function.update reg i (mem (index + i)))
    else .error (.oob (index + i))

/-- The dispatch `match instr { ... }` of `Cpu::cycle`, applied to the
state in which PC has already been incremented by 2.  `todo!()` arms
(`Cls`, `Rnd`, `Drw`, `Skp`, `Sknp`, `LdRegK`, `LdB`) fault. -/
def exec (i : Instruction) (c : Cpu) : Except Fault Cpu :=
  match i with
  | .Cls => .error .unimplemented
  | .Ret =>
    let p := c.stack.pop
    .ok { c with pc := p.1, stack := p.2 }
  | .JpImm addr => .ok { c with pc := addr }
  | .Call addr => .ok { c with stack := c.stack.push c.pc, pc := addr }
  | .SeImm x imm => .ok (if c.reg x = imm then { c with pc := c.pc + 2 } else c)
  | .SneImm x imm => .ok (if c.reg x ≠ imm then { c with pc := c.pc + 2 } else c)
  | .SeReg x y => .ok (if c.reg x = c.reg y then { c with pc := c.pc + 2 } else c)
  | .LdImm x imm => .ok { c with reg := Function.update c.reg x imm }
  | .AddImm x imm =>
    -- `overflowing_add` on u8: wrapping sum, the carry flag is dropped
    .ok { c with reg := Function.update c.reg x ((c.reg x + imm) % 256) }
  | .LdReg x y => .ok { c with reg := Function.update c.reg x (c.reg y) }
  | .OrReg x y => .ok { c with reg := Function.update c.reg x (c.reg x ||| c.reg y) }
  | .AndReg x y => .ok { c with reg := Function.update c.reg x (c.reg x &&& c.reg y) }
  | .XorReg x y => .ok { c with reg := Function.update c.reg x (c.reg x ^^^ c.reg y) }
  | .AddReg x y =>
    -- result and carry both come from the pre-assignment register values,
    -- then Vx is assigned and VF is assigned after it
    let carry := if 255 < c.reg x + c.reg y then 1 else 0
    .ok { c with reg := Function.update (Function.update c.reg x ((c.reg x + c.reg y) % 256)) 0xf carry }
  | .SubReg x y =>
    -- `overflowing_sub` on u8 (register values are bytes): wrapping
    -- difference, borrow iff Vx < Vy; VF := if !borrow { 1 } else { 0 }
    let notBorrow := if c.reg y ≤ c.reg x then 1 else 0
    .ok { c with reg := Function.update (Function.update c.reg x ((c.reg x + 256 - c.reg y) % 256)) 0xf notBorrow }
  | .Shr x _y =>
    -- `overflowing_shr(1)` on u8 returns `(v >> 1, false)`: its Bool is
    -- shift-amount overflow (rhs >= 8), not the shifted-out bit, so the
    -- `carry` the code stores into VF is always 0
    .ok { c with reg := Function.update (Function.update c.reg x (c.reg x / 2)) 0xf 0 }
  | .Subn x y =>
    let notBorrow := if c.reg x ≤ c.reg y then 1 else 0
    .ok { c with reg := Function.update (Function.update c.reg x ((c.reg y + 256 - c.reg x) % 256)) 0xf notBorrow }
  | .Shl x _y =>
    -- `overflowing_shl(1)` on u8 returns `(v << 1 mod 256, false)`, so the
    -- `carry` stored into VF is always 0
    .ok { c with reg := Function.update (Function.update c.reg x (c.reg x * 2 % 256)) 0xf 0 }
  | .SneReg x y => .ok (if c.reg x ≠ c.reg y then { c with pc := c.pc + 2 } else c)
  | .LdI addr => .ok { c with index := addr }
  | .JpReg addr => .ok { c with pc := addr + c.reg 0 }
  | .Rnd _x _imm => .error .unimplemented
  | .Drw _x _y _n => .error .unimplemented
  | .Skp _x => .error .unimplemented
  | .Sknp _x => .error .unimplemented
  | .LdRegDt x => .ok { c with reg := Function.update c.reg x c.delayTimer }
  | .LdRegK _x => .error .unimplemented
  | .LdDtReg x => .ok { c with delayTimer := c.reg x }
  | .LdStReg x => .ok { c with soundTimer := c.reg x }
  | .AddI x =>
    -- `wrapping_add` on u16
    .ok { c with index := (c.index + c.reg x) % 65536 }
  | .LdF x =>
    -- source: `self.index = FONT_BASE_ADDRESS + (vx as u16 * FONT_CHAR_SIZE)`,
    -- where `vx` is the decoded register index itself, not `self.reg[vx]`
    .ok { c with index := FONT_BASE_ADDRESS + x * FONT_CHAR_SIZE }
  | .LdB _x => .error .unimplemented
  | .LdMemReg x =>
    match storeRegsAux c.reg c.index (x + 1) 0 c.memory with
    | .ok mem' => .ok { c with memory := mem' }
    | .error e => .error e
  | .LdRegMem x =>
    match loadRegsAux c.memory c.index (x + 1) 0 c.reg with
    | .ok reg' => .ok { c with reg := reg' }
    | .error e => .error e

/-- The 16-bit word `Cpu::cycle` assembles from memory (when both bytes
are in bounds): `((instr_hi as u16) << 8) | instr_lo as u16`, where
`instr_lo = memory[pc]` and `instr_hi = memory[pc + 1]`. -/
def fetchWord (c : Cpu) : Nat :=
  (c.memory (c.pc + 1) <<< 8) ||| c.memory c.pc

/-- `Cpu::cycle`: fetch the two bytes at `[PC, PC+1]`, assemble the word
with the byte at PC as the LOW byte, decode, increment PC by 2, dispatch. -/
def cycle (c : Cpu) : Except Fault Cpu :=
  match memRead c c.pc with
  | .error e => .error e
  | .ok lo =>
    match memRead c (c.pc + 1) with
    | .error e => .error e
    | .ok hi =>
      match decode ((hi <<< 8) ||| lo) with
      | .error e => .error e
      | .ok i => exec i { c with pc := c.pc + 2 }

/-- Modelled from the spec: the `LdB` arm of `Cpu::cycle` is `todo!()` in
the source, so Load-BCD is modelled from §4.2 of the spec ("decompose Vx
into three decimal digits (hundreds, tens, ones) and store them at
memory[I], memory[I+1], memory[I+2] respectively"), with the memory
accesses validated against the 4096-byte bound as §7 requires.  Like the
other `exec` arms it acts on the state whose PC was already advanced. -/
def execLdB (x : Nat) (c : Cpu) : Except Fault Cpu :=
  if c.index + 2 < 4096 then
    let m1 := Function.update c.memory c.index (c.reg x / 100)
    let m2 := Function.update m1 (c.index + 1) (c.reg x / 10 % 10)
    let m3 := Function.update m2 (c.index + 2) (c.reg x % 10)
    .ok { c with memory := m3 }
  else .error (.oob (c.index + 2))

/-- Sixteen consecutive pushes, first element pushed first. -/
def pushAll (s : Stack) (vs : List Nat) : Stack := vs.foldl Stack.push s

/-- `n` consecutive pops; the list collects popped values in pop order. -/
def popN : Stack → Nat → List Nat × Stack
  | s, 0 => ([], s)
  | s, n + 1 =>
    let p := s.pop
    let r := popN p.2 n
    (p.1 :: r.1, r.2)

theorem push_sp (s : Stack) (v : Nat) (h : s.sp < 16) : (s.push v).sp = (s.sp + 1) % 16 := by
  simp only [Stack.push]
  split_ifs with h1 <;> omega

theorem push_sp_lt (s : Stack) (v : Nat) (h : s.sp < 16) : (s.push v).sp < 16 := by
  rw [push_sp s v h]; omega

theorem push_bytes (s : Stack) (v : Nat) :
    (s.push v).bytes = Function.update s.bytes s.sp v := rfl

theorem pop_snd_bytes (s : Stack) : s.pop.2.bytes = s.bytes := rfl

theorem pop_snd_sp (s : Stack) : s.pop.2.sp = if s.sp = 0 then 15 else s.sp - 1 := rfl

theorem pop_fst (s : Stack) : s.pop.1 = s.bytes (if s.sp = 0 then 15 else s.sp - 1) := rfl

theorem popN_bytes : ∀ n (s : Stack), (popN s n).2.bytes = s.bytes := by
  intro n
  induction n with
  | zero => intro s; rfl
  | succ n ih => intro s; simpa [popN] using ih s.pop.2

theorem popN_succ_back : ∀ n (s : Stack),
    popN s (n + 1) = ((popN s n).1 ++ [(popN s n).2.pop.1], (popN s n).2.pop.2) := by
  intro n
  induction n with
  | zero => intro s; simp [popN]
  | succ n ih =>
    intro s
    have h1 : popN s (n + 1 + 1) = (s.pop.1 :: (popN s.pop.2 (n + 1)).1, (popN s.pop.2 (n + 1)).2) := rfl
    have h2 : popN s (n + 1) = (s.pop.1 :: (popN s.pop.2 n).1, (popN s.pop.2 n).2) := rfl
    rw [h1, ih s.pop.2, h2]
    simp

theorem pushAll_cons (s : Stack) (v : Nat) (rest : List Nat) :
    pushAll s (v :: rest) = pushAll (s.push v) rest := rfl

theorem pushAll_sp : ∀ (vs : List Nat) (s : Stack), s.sp < 16 →
    (pushAll s vs).sp = (s.sp + vs.length) % 16 := by
  intro vs
  induction vs with
  | nil => intro s h; simp [pushAll]; omega
  | cons v rest ih =>
    intro s h
    rw [pushAll_cons, ih (s.push v) (push_sp_lt s v h), push_sp s v h]
    simp only [List.length_cons]
    omega

theorem pushAll_sp_lt (vs : List Nat) (s : Stack) (h : s.sp < 16) : (pushAll s vs).sp < 16 := by
  rw [pushAll_sp vs s h]; omega

theorem pushAll_bytes_outside : ∀ (vs : List Nat) (s : Stack) (k : Nat), s.sp < 16 →
    (∀ j < vs.length, k ≠ (s.sp + j) % 16) → (pushAll s vs).bytes k = s.bytes k := by
  intro vs
  induction vs with
  | nil => intro s k _ _; rfl
  | cons v rest ih =>
    intro s k h hout
    rw [pushAll_cons, ih (s.push v) k (push_sp_lt s v h) ?_, push_bytes,
      Function.update_apply]
    · have h0 := hout 0 (by simp)
      split_ifs with hk
      · exfalso; omega
      · rfl
    · intro j hj
      have := hout (j + 1) (by simp; omega)
      rw [push_sp s v h]
      omega

theorem popN_pushAll : ∀ (vs : List Nat) (s : Stack), s.sp < 16 → vs.length ≤ 16 →
    (popN (pushAll s vs) vs.length).1 = vs.reverse ∧
    (popN (pushAll s vs) vs.length).2.sp = s.sp := by
  intro vs
  induction vs with
  | nil => intro s _ _; exact ⟨rfl, rfl⟩
  | cons v rest ih =>
    intro s hsp hlen
    have hpl := push_sp_lt s v hsp
    have hlen' : rest.length ≤ 16 := by simp at hlen; omega
    obtain ⟨ih1, ih2⟩ := ih (s.push v) hpl hlen'
    rw [pushAll_cons, List.length_cons, popN_succ_back]
    have hbytes : (popN (pushAll (s.push v) rest) rest.length).2.bytes =
        (pushAll (s.push v) rest).bytes := popN_bytes _ _
    have hslot : (if (s.push v).sp = 0 then 15 else (s.push v).sp - 1) = s.sp := by
      rw [push_sp s v hsp]; split_ifs <;> omega
    have hrl : rest.length ≤ 15 := by simp at hlen; omega
    have hval : (pushAll (s.push v) rest).bytes s.sp = v := by
      rw [pushAll_bytes_outside rest (s.push v) s.sp hpl ?_, push_bytes, Function.update_same]
      intro j hj
      rw [push_sp s v hsp]
      omega
    constructor
    · rw [List.reverse_cons, ← ih1]
      congr 1
      rw [pop_fst, hbytes, ih2, hslot, hval]
    · rw [pop_snd_sp, ih2, hslot]

theorem storeRegsAux_ok (reg : Nat → Nat) (index : Nat) :
    ∀ count i mem, index + i + count ≤ 4096 →
    ∃ mem', storeRegsAux reg index count i mem = .ok mem' ∧
      ∀ a, mem' a = if index + i ≤ a ∧ a < index + i + count then reg (a - index) else mem a := by
  intro count
  induction count with
  | zero =>
    intro i mem _
    refine ⟨mem, rfl, fun a => ?_⟩
    split_ifs with hc
    · exfalso; omega
    · rfl
  | succ count ih =>
    intro i mem h
    have hb : index + i < 4096 := by omega
    obtain ⟨mem', hok, hchar⟩ := ih (i + 1) (Function.update mem (index + i) (reg i)) (by omega)
    refine ⟨mem', ?_, fun a => ?_⟩
    · simp [storeRegsAux, memWrite, hb, hok]
    · rw [hchar a, Function.update_apply]
      split_ifs <;> first | rfl | omega | (congr 1; omega)

theorem storeRegsAux_err (reg : Nat → Nat) (index : Nat) :
    ∀ count i mem, 0 < count → 4096 < index + i + count →
    ∃ a, 4096 ≤ a ∧ storeRegsAux reg index count i mem = .error (.oob a) := by
  intro count
  induction count with
  | zero => intro i mem h _; exact absurd h (by omega)
  | succ count ih =>
    intro i mem _ h
    by_cases hb : index + i < 4096
    · obtain ⟨a, ha, herr⟩ := ih (i + 1) (Function.update mem (index + i) (reg i))
        (by omega) (by omega)
      exact ⟨a, ha, by simp [storeRegsAux, memWrite, hb, herr]⟩
    · exact ⟨index + i, by omega, by simp [storeRegsAux, memWrite, hb]⟩

theorem loadRegsAux_ok (mem : Nat → Nat) (index : Nat) :
    ∀ count i reg, index + i + count ≤ 4096 →
    ∃ reg', loadRegsAux mem index count i reg = .ok reg' ∧
      ∀ r, reg' r = if i ≤ r ∧ r < i + count then mem (index + r) else reg r := by
  intro count
  induction count with
  | zero =>
    intro i reg _
    refine ⟨reg, rfl, fun r => ?_⟩
    split_ifs with hc
    · exfalso; omega
    · rfl
  | succ count ih =>
    intro i reg h
    have hb : index + i < 4096 := by omega
    obtain ⟨reg', hok, hchar⟩ := ih (i + 1) (Function.update reg i (mem (index + i))) (by omega)
    refine ⟨reg', ?_, fun r => ?_⟩
    · simp [loadRegsAux, hb, hok]
    · rw [hchar r, Function.update_apply]
      split_ifs <;> first | rfl | omega | (congr 1; omega)

theorem loadRegsAux_err (mem : Nat → Nat) (index : Nat) :
    ∀ count i reg, 0 < count → 4096 < index + i + count →
    ∃ a, 4096 ≤ a ∧ loadRegsAux mem index count i reg = .error (.oob a) := by
  intro count
  induction count with
  | zero => intro i reg h _; exact absurd h (by omega)
  | succ count ih =>
    intro i reg _ h
    by_cases hb : index + i < 4096
    · obtain ⟨a, ha, herr⟩ := ih (i + 1) (Function.update reg i (mem (index + i)))
        (by omega) (by omega)
      exact ⟨a, ha, by simp [loadRegsAux, hb, herr]⟩
    · exact ⟨index + i, by omega, by simp [loadRegsAux, hb]⟩

/-- When both fetch addresses are in bounds, a cycle is: decode the
fetched word, then dispatch on the PC-advanced state. -/
theorem cycle_eq (c : Cpu) (h : c.pc + 1 < 4096) :
    cycle c = match decode (fetchWord c) with
      | .error e => .error e
      | .ok i => exec i { c with pc := c.pc + 2 } := by
  have h0 : c.pc < 4096 := by omega
  simp [cycle, memRead, h0, h, fetchWord]

/-- A fetch whose second (or first) byte address is out of range faults. -/
theorem cycle_fetch_oob (c : Cpu) (h : 4096 ≤ c.pc + 1) :
    ∃ a, 4096 ≤ a ∧ cycle c = .error (.oob a) := by
  by_cases h0 : c.pc < 4096
  · exact ⟨c.pc + 1, by omega, by simp [cycle, memRead, h0, show ¬(c.pc + 1 < 4096) by omega]⟩
  · exact ⟨c.pc, by omega, by simp [cycle, memRead, h0]⟩

/-- State for the fetch-endianness scenario: the spec stores the word
0x6A05 big-endian at 0x200 (byte 0x6A at PC, byte 0x05 at PC+1). -/
def c1State : Cpu :=
  { pc := 0x200, index := 0, reg := fun _ => 0, delayTimer := 0, soundTimer := 0,
    memory := fun a => if a = 0x200 then 0x6A else if a = 0x201 then 0x05 else 0,
    stack := Stack.new }

/-- C1: the claim says the byte at PC is the MOST significant byte of the
fetched word (big-endian).  The code assembles
`(memory[PC+1] << 8) | memory[PC]` instead: with the spec's big-endian
bytes 0x6A 0x05 at PC the fetched word is 0x056A, not 0x6A05, and the
step decode-faults on 0x056A instead of executing `LdImm VA, 05`. -/
theorem c1_fetch_little_endian :
    fetchWord c1State = 0x056A ∧ cycle c1State = .error (.decodeFault 0x056A) :=
  ⟨rfl, rfl⟩

/-- State with V0 = 1 (low bit set) and V1 = 0x80 (high bit set). -/
def shrState : Cpu :=
  { pc := 0x202, index := 0, reg := Function.update (Function.update (fun _ => 0) 0 1) 1 0x80,
    delayTimer := 0, soundTimer := 0, memory := fun _ => 0, stack := Stack.new }

/-- C2: the claim says the shifts set VF to the bit shifted out.  The code
uses `overflowing_shr(1)` / `overflowing_shl(1)`, whose Bool flags
shift-AMOUNT overflow and is always false for a shift by 1, so VF is
always set to 0: shifting V0 = 1 right yields V0 = 0 with VF = 0 (the
shifted-out LSB was 1), and shifting V1 = 0x80 left yields V1 = 0 with
VF = 0 (the shifted-out MSB was 1).  The result values and the ignored y
operand match the claim; only the flag diverges. -/
theorem c2_shift_flag_zero :
    (∃ c', exec (.Shr 0 5) shrState = .ok c' ∧ c'.reg 0 = 0 ∧ c'.reg 15 = 0) ∧
    (∃ c', exec (.Shl 1 5) shrState = .ok c' ∧ c'.reg 1 = 0 ∧ c'.reg 15 = 0) :=
  ⟨⟨_, rfl, by decide, by decide⟩, ⟨_, rfl, by decide, by decide⟩⟩

/-- State for the three-step font scenario; the instruction bytes are laid
out in the order the code's fetch actually consumes them (low byte at PC),
so that the three words decoded are 0x6A05, 0x7A03, 0xFA29. -/
def c3State : Cpu :=
  { pc := 0x200, index := 0, reg := fun _ => 0, delayTimer := 0, soundTimer := 0,
    memory := fun a =>
      if a = 0x200 then 0x05 else if a = 0x201 then 0x6A else
      if a = 0x202 then 0x03 else if a = 0x203 then 0x7A else
      if a = 0x204 then 0x29 else if a = 0x205 then 0xFA else 0,
    stack := Stack.new }

/-- C3: the claim says Load-font sets I := FONT_BASE + (value of Vx) * 5.
The `LdF` arm computes `FONT_BASE_ADDRESS + (vx as u16 * FONT_CHAR_SIZE)`
from the decoded register INDEX `vx`, not from `self.reg[vx]`: after the
three-step scenario (VA = 8 and PC = 0x206 as the claim expects) the
index register holds FONT_BASE + 0xA * 5 = 0x132, not
FONT_BASE + 8 * 5 = 0x128. -/
theorem c3_ldf_uses_index_not_value :
    ∃ cf, (do
        let c1 ← cycle c3State
        let c2 ← cycle c1
        cycle c2) = .ok cf ∧
      cf.reg 0xA = 8 ∧ cf.pc = 0x206 ∧ cf.index = 0x132 ∧
      cf.index ≠ FONT_BASE_ADDRESS + 8 * FONT_CHAR_SIZE :=
  ⟨_, rfl, by decide, by decide, by decide, by decide⟩

/-- C4: decode is total over all 2^16 words: every word whose nibble
pattern is one of the defined encodings decodes to an instruction, and
every other word fails with a decode fault carrying the offending word —
never a silent default. -/
theorem c4_decode_total (w : Nat) (hw : w < 65536) :
    (specDefinedEncoding w = true ∧ ∃ i, decode w = .ok i) ∨
    (specDefinedEncoding w = false ∧ decode w = .error (.decodeFault w)) := by
  rcases decode_total_cases w with ⟨hs, i, hok, _⟩ | h
  · exact Or.inl ⟨hs, i, hok⟩
  · exact Or.inr h

theorem c4_decode_total_witness :
    (specDefinedEncoding 0x5001 = true ∧ ∃ i, decode 0x5001 = .ok i) ∨
    (specDefinedEncoding 0x5001 = false ∧ decode 0x5001 = .error (.decodeFault 0x5001)) :=
  c4_decode_total 0x5001 (by decide)

/-- C5: Add-reg computes the wrapped sum and writes the carry flag into VF
after the primary result (so VF holds the flag even when x = 15); Sub-reg
computes the wrapped difference and writes the no-borrow flag likewise. -/
theorem c5_addsub_flags (c : Cpu) (x y : Nat) (hx : x < 16) (hy : y < 16)
    (hvx : c.reg x < 256) (hvy : c.reg y < 256) :
    (∃ c', exec (.AddReg x y) c = .ok c' ∧
      c'.reg 15 = (if 255 < c.reg x + c.reg y then 1 else 0) ∧
      (x ≠ 15 → c'.reg x = (c.reg x + c.reg y) % 256)) ∧
    (∃ c', exec (.SubReg x y) c = .ok c' ∧
      c'.reg 15 = (if c.reg y ≤ c.reg x then 1 else 0) ∧
      (x ≠ 15 → c'.reg x = (c.reg x + 256 - c.reg y) % 256) ∧
      (x ≠ 15 → (c'.reg x : Int) = ((c.reg x : Int) - (c.reg y : Int)) % 256)) := by
  constructor
  · refine ⟨_, rfl, ?_, fun hx15 => ?_⟩
    · simp [Function.update_apply]
    · simp [Function.update_apply, hx15]
  · refine ⟨_, rfl, ?_, fun hx15 => ?_, fun hx15 => ?_⟩
    · simp [Function.update_apply]
    · simp [Function.update_apply, hx15]
    · simp [Function.update_apply, hx15]
      omega

def c5State : Cpu :=
  { pc := 0x202, index := 0,
    reg := Function.update (Function.update (fun _ => 0) 2 200) 3 100,
    delayTimer := 0, soundTimer := 0, memory := fun _ => 0, stack := Stack.new }

theorem c5_addsub_flags_witness :
    (∃ c', exec (.AddReg 2 3) c5State = .ok c' ∧
      c'.reg 15 = (if 255 < c5State.reg 2 + c5State.reg 3 then 1 else 0) ∧
      (2 ≠ 15 → c'.reg 2 = (c5State.reg 2 + c5State.reg 3) % 256)) ∧
    (∃ c', exec (.SubReg 2 3) c5State = .ok c' ∧
      c'.reg 15 = (if c5State.reg 3 ≤ c5State.reg 2 then 1 else 0) ∧
      (2 ≠ 15 → c'.reg 2 = (c5State.reg 2 + 256 - c5State.reg 3) % 256) ∧
      (2 ≠ 15 → (c'.reg 2 : Int) = ((c5State.reg 2 : Int) - (c5State.reg 3 : Int)) % 256)) :=
  c5_addsub_flags c5State 2 3 (by decide) (by decide) (by decide) (by decide)

/-- C6: from any reachable stack state, 16 pushes followed by 16 pops
return the pushed values in reverse order and restore the stack pointer;
a 17th push from starting pointer 0 overwrites slot 0; the stack pointer
wraps modulo 16 on overflow (push at sp = 15) and underflow (pop at
sp = 0) instead of faulting. -/
theorem c6_stack_lifo_wrap (s : Stack) (vs : List Nat) (v : Nat)
    (hsp : s.sp < 16) (hlen : vs.length = 16) :
    (popN (pushAll s vs) 16).1 = vs.reverse ∧
    (popN (pushAll s vs) 16).2.sp = s.sp ∧
    (s.sp = 0 → (pushAll s vs).sp = 0 ∧ ((pushAll s vs).push v).bytes 0 = v) ∧
    (∀ t : Stack, t.sp = 15 → (t.push v).sp = 0) ∧
    (∀ t : Stack, t.sp = 0 → t.pop.2.sp = 15) := by
  obtain ⟨h1, h2⟩ := popN_pushAll vs s hsp (by omega)
  rw [hlen] at h1 h2
  refine ⟨h1, h2, fun h0 => ⟨?_, ?_⟩, fun t ht => ?_, fun t ht => ?_⟩
  · rw [pushAll_sp vs s hsp, h0, hlen]
  · rw [push_bytes, pushAll_sp vs s hsp, h0, hlen, Function.update_same]
  · simp [Stack.push, ht]
  · simp [Stack.pop, ht]

def stackVals : List Nat := [1, 2, 3, 4, 5, 6, 7, 8, 9, 10, 11, 12, 13, 14, 15, 16]

theorem c6_stack_lifo_wrap_witness :
    (popN (pushAll Stack.new stackVals) 16).1 = stackVals.reverse ∧
    (popN (pushAll Stack.new stackVals) 16).2.sp = Stack.new.sp ∧
    (Stack.new.sp = 0 → (pushAll Stack.new stackVals).sp = 0 ∧
      ((pushAll Stack.new stackVals).push 99).bytes 0 = 99) ∧
    (∀ t : Stack, t.sp = 15 → (t.push 99).sp = 0) ∧
    (∀ t : Stack, t.sp = 0 → t.pop.2.sp = 15) :=
  c6_stack_lifo_wrap Stack.new stackVals 99 (by decide) (by decide)

/-- C7: a computed memory address of 4096 or more — PC+1 (or PC) during
fetch, I+i during a register/memory block transfer, I+2 during the
spec-modelled BCD store — makes the step fail with a memory
out-of-bounds fault carrying the offending address, a fault distinct
from a decode fault; the address is never wrapped and the array is
never accessed out of range. -/
theorem c7_oob_faults :
    (∀ c : Cpu, 4096 ≤ c.pc + 1 → ∃ a, 4096 ≤ a ∧ cycle c = .error (.oob a)) ∧
    (∀ (c : Cpu) (x : Nat), x < 16 → 4096 ≤ c.index + x →
      ∃ a, 4096 ≤ a ∧ exec (.LdMemReg x) c = .error (.oob a)) ∧
    (∀ (c : Cpu) (x : Nat), x < 16 → 4096 ≤ c.index + x →
      ∃ a, 4096 ≤ a ∧ exec (.LdRegMem x) c = .error (.oob a)) ∧
    (∀ (c : Cpu) (x : Nat), 4096 ≤ c.index + 2 → execLdB x c = .error (.oob (c.index + 2))) ∧
    (∀ a w, Fault.oob a ≠ Fault.decodeFault w) := by
  refine ⟨cycle_fetch_oob, fun c x _ hb => ?_, fun c x _ hb => ?_, fun c x hb => ?_,
    fun a w => by simp⟩
  · obtain ⟨a, ha, herr⟩ := storeRegsAux_err c.reg c.index (x + 1) 0 c.memory
      (by omega) (by omega)
    exact ⟨a, ha, by simp [exec, herr]⟩
  · obtain ⟨a, ha, herr⟩ := loadRegsAux_err c.memory c.index (x + 1) 0 c.reg
      (by omega) (by omega)
    exact ⟨a, ha, by simp [exec, herr]⟩
  · simp [execLdB, show ¬(c.index + 2 < 4096) by omega]

def oobState : Cpu :=
  { pc := 4095, index := 4094, reg := fun _ => 0, delayTimer := 0, soundTimer := 0,
    memory := fun _ => 0, stack := Stack.new }

theorem c7_oob_faults_witness :
    (∃ a, 4096 ≤ a ∧ cycle oobState = .error (.oob a)) ∧
    (∃ a, 4096 ≤ a ∧ exec (.LdMemReg 2) oobState = .error (.oob a)) ∧
    (∃ a, 4096 ≤ a ∧ exec (.LdRegMem 2) oobState = .error (.oob a)) ∧
    execLdB 0 oobState = .error (.oob (oobState.index + 2)) :=
  ⟨c7_oob_faults.1 oobState (by decide),
   c7_oob_faults.2.1 oobState 2 (by decide) (by decide),
   c7_oob_faults.2.2.1 oobState 2 (by decide) (by decide),
   c7_oob_faults.2.2.2.1 oobState 0 (by decide)⟩

/-- C8 (spec-modelled, the source arm is `todo!()`): Load-BCD stores the
hundreds digit of Vx at memory[I], the tens digit at memory[I+1] and the
ones digit at memory[I+2], and changes nothing else in the state (the PC
advance belongs to the fetch phase, which this modelled arm follows). -/
theorem c8_ldb_bcd (c : Cpu) (x : Nat) (hx : x < 16) (hb : c.index + 2 < 4096)
    (hv : c.reg x < 256) :
    ∃ c', execLdB x c = .ok c' ∧
      c'.memory c.index = c.reg x / 100 % 10 ∧
      c'.memory (c.index + 1) = c.reg x / 10 % 10 ∧
      c'.memory (c.index + 2) = c.reg x % 10 ∧
      (∀ a, a ≠ c.index → a ≠ c.index + 1 → a ≠ c.index + 2 → c'.memory a = c.memory a) ∧
      c'.reg = c.reg ∧ c'.pc = c.pc ∧ c'.index = c.index ∧ c'.stack = c.stack ∧
      c'.delayTimer = c.delayTimer ∧ c'.soundTimer = c.soundTimer := by
  unfold execLdB
  rw [if_pos hb]
  refine ⟨_, rfl, ?_, ?_, ?_, fun a ha0 ha1 ha2 => ?_, rfl, rfl, rfl, rfl, rfl, rfl⟩
  · simp [Function.update_apply]
    omega
  · simp [Function.update_apply]
  · simp [Function.update_apply]
  · simp [Function.update_apply, ha0, ha1, ha2]

def bcdState : Cpu :=
  { pc := 0x204, index := 0x300, reg := Function.update (fun _ => 0) 3 237,
    delayTimer := 0, soundTimer := 0, memory := fun _ => 0, stack := Stack.new }

theorem c8_ldb_bcd_witness :
    ∃ c', execLdB 3 bcdState = .ok c' ∧
      c'.memory bcdState.index = bcdState.reg 3 / 100 % 10 ∧
      c'.memory (bcdState.index + 1) = bcdState.reg 3 / 10 % 10 ∧
      c'.memory (bcdState.index + 2) = bcdState.reg 3 % 10 ∧
      (∀ a, a ≠ bcdState.index → a ≠ bcdState.index + 1 → a ≠ bcdState.index + 2 →
        c'.memory a = bcdState.memory a) ∧
      c'.reg = bcdState.reg ∧ c'.pc = bcdState.pc ∧ c'.index = bcdState.index ∧
      c'.stack = bcdState.stack ∧ c'.delayTimer = bcdState.delayTimer ∧
      c'.soundTimer = bcdState.soundTimer :=
  c8_ldb_bcd bcdState 3 (by decide) (by decide) (by decide)

/-- C9: a cycle whose fetched word decodes to `LdMemReg x` (with the
fetch and the transfer window in bounds) writes memory[I+i] := V[i] for
each i ≤ x and exactly those bytes: all other memory, every register,
the index register, the stack and the timers are unchanged, and PC
advances by 2. -/
theorem c9_ldmemreg_frame (c : Cpu) (x : Nat) (hx : x < 16) (hpc : c.pc + 1 < 4096)
    (hdec : decode (fetchWord c) = .ok (.LdMemReg x)) (hb : c.index + x < 4096) :
    ∃ c', cycle c = .ok c' ∧
      (∀ i, i ≤ x → c'.memory (c.index + i) = c.reg i) ∧
      (∀ a, a < c.index ∨ c.index + x < a → c'.memory a = c.memory a) ∧
      c'.reg = c.reg ∧ c'.index = c.index ∧ c'.pc = c.pc + 2 ∧ c'.stack = c.stack ∧
      c'.delayTimer = c.delayTimer ∧ c'.soundTimer = c.soundTimer := by
  rw [cycle_eq c hpc, hdec]
  obtain ⟨mem', hok, hchar⟩ := storeRegsAux_ok c.reg c.index (x + 1) 0 c.memory (by omega)
  simp only [exec, hok]
  refine ⟨_, rfl, fun i hi => ?_, fun a ha => ?_, rfl, rfl, rfl, rfl, rfl, rfl⟩
  · show mem' (c.index + i) = c.reg i
    rw [hchar, if_pos (by omega)]
    congr 1
    omega
  · show mem' a = c.memory a
    rw [hchar, if_neg (by omega)]

def ldmrState : Cpu :=
  { pc := 0x200, index := 0x300,
    reg := Function.update (Function.update (Function.update (Function.update
      (fun _ => 0) 0 1) 1 2) 2 3) 3 4,
    delayTimer := 0, soundTimer := 0,
    memory := fun a => if a = 0x200 then 0x55 else if a = 0x201 then 0xF3 else 0,
    stack := Stack.new }

theorem c9_ldmemreg_frame_witness :
    ∃ c', cycle ldmrState = .ok c' ∧
      (∀ i, i ≤ 3 → c'.memory (ldmrState.index + i) = ldmrState.reg i) ∧
      (∀ a, a < ldmrState.index ∨ ldmrState.index + 3 < a → c'.memory a = ldmrState.memory a) ∧
      c'.reg = ldmrState.reg ∧ c'.index = ldmrState.index ∧ c'.pc = ldmrState.pc + 2 ∧
      c'.stack = ldmrState.stack ∧ c'.delayTimer = ldmrState.delayTimer ∧
      c'.soundTimer = ldmrState.soundTimer :=
  c9_ldmemreg_frame ldmrState 3 (by decide) (by decide) (by rfl) (by decide)

/-- C10: addresses and immediate bytes are assembled from individual
nibbles low nibble first, and every successfully decoded instruction has
register-index and nibble-count fields below 16 (the register-file
bound), immediate bytes below 256 and addresses below 4096. -/
theorem c10_operand_ranges :
    (∀ n0 n1 n2 : Nat,
      assembleAddress n0 n1 n2 = n0 % 16 + (n1 % 16) * 16 + (n2 % 16) * 256 ∧
      assembleAddress n0 n1 n2 < 4096) ∧
    (∀ k0 k1 : Nat, assembleByte k0 k1 = k0 % 16 + (k1 % 16) * 16 ∧
      assembleByte k0 k1 < 256) ∧
    (∀ w i, decode w = .ok i → operandsInRange i) := by
  refine ⟨fun n0 n1 n2 => ⟨assembleAddress_eq n0 n1 n2, assembleAddress_lt n0 n1 n2⟩,
    fun k0 k1 => ⟨assembleByte_eq k0 k1, assembleByte_lt k0 k1⟩, fun w i h => ?_⟩
  rcases decode_total_cases w with ⟨_, j, hok, hops⟩ | ⟨_, herr⟩
  · rw [h] at hok
    injection hok with hj
    exact hj ▸ hops
  · rw [h] at herr
    exact absurd herr (by simp)

theorem c10_operand_ranges_witness :
    decode 0x2ABC = .ok (.Call 0xABC) ∧ operandsInRange (.Call 0xABC) :=
  ⟨by rfl, c10_operand_ranges.2.2 0x2ABC (.Call 0xABC) (by rfl)⟩
